import Mathlib

/-!
Conversation-context synchronisation engine (`static/js/context-memory.js`).

A shallow embedding of `ContextMemoryManager`.  The engine's fields are a record,
the browser facilities it talks to (the IndexedDB object store, `fetch`, the DOM,
the clock) are an explicit environment `Env` that fixes the outcome of every
request of one call, and every asynchronous method is a function from the
environment and the system state to a completion (`resolved` / `rejected`) and
the next system state.  The system state carries the trace of the effects issued
so far, so "what was sent where, and how often" is a statement about a list.

Asynchronous methods are run to completion one after the other: the model covers
executions in which no other call is interleaved at an `await`.
-/

namespace EduBot

/-! ## Data model -/

/-- Message held in `contextData`: the object literal built in `addMessage`. -/
structure Message where
  sender : String
  text : String
  timestamp : String
deriving DecidableEq, Repr

/-- Record written to the `conversations` object store by `saveToIndexedDB`
(key path `session_id`). -/
structure ConversationRecord where
  session_id : Option String
  messages : List Message
  timestamp : String
deriving DecidableEq, Repr

/-- Handle returned by a successful `indexedDB.open(dbName, dbVersion)`. -/
structure IDBDatabase where
  name : String
  version : Nat
deriving DecidableEq, Repr

/-- Fields of `ContextMemoryManager` set in the constructor. -/
structure ContextMemoryManager where
  sessionId : Option String
  contextData : List Message
  maxLocalMessages : Nat
  autoSaveInterval : Nat
  dbName : String
  dbVersion : Nat
  storeName : String
  db : Option IDBDatabase
deriving DecidableEq, Repr

/-- Outcome of `fetch('/api/context/session-id')` followed by `response.json()`. -/
inductive SessionReply where
  | fetchThrows
  | jsonThrows
  | body (status : String) (session_id : Option String)
deriving DecidableEq, Repr

/-- Outcome of `fetch('/api/context/load')` followed by `response.json()`.
In `body`, `data` is `none` when the decoded object has no `data` member and
`some none` when `data.context_data` is missing or null. -/
inductive LoadReply where
  | fetchThrows
  | jsonThrows
  | body (status : String) (has_context : Bool) (data : Option (Option (List Message)))
deriving DecidableEq, Repr

/-- Outcome of a `POST` (`/api/context/save`, `/api/context/clear`) followed by
`response.json()`. -/
inductive PostReply where
  | fetchThrows
  | jsonThrows
  | body (status : String) (message : String)
deriving DecidableEq, Repr

/-- Event fired on an IndexedDB request: `onsuccess` or `onerror`. -/
inductive IDBOutcome where
  | onsuccess
  | onerror (error : String)
deriving DecidableEq, Repr

/-- Everything the browser decides during one call of an engine method. -/
structure Env where
  /-- value of `new Date().toISOString()` -/
  nowISO : String
  /-- value of `Date.now()` -/
  dateNow : Nat
  /-- value of `Math.random().toString(36).substr(2, 9)` -/
  randomPart : String
  /-- the platform's `JSON.stringify` applied to `\x7bmessages: ...\x7d` -/
  stringify : List Message → String
  sessionReply : SessionReply
  loadReply : LoadReply
  saveReply : PostReply
  clearReply : PostReply
  openOutcome : IDBOutcome
  getOutcome : IDBOutcome
  putOutcome : IDBOutcome
  deleteOutcome : IDBOutcome
  /-- Whether `document.getElementById('messagesContainer')` is non-null -/
  messagesContainer : Bool
  /-- Whether `document.getElementById('welcomeScreen')` is non-null -/
  welcomeScreen : Bool
  /-- Whether `window.addMessage` is defined -/
  windowAddMessage : Bool
  /-- Whether `window.toastManager` is defined -/
  toastManager : Bool

/-- Observable effects, in the order the engine issues them. -/
inductive Effect where
  | fetchSessionId
  | fetchLoad
  | fetchSave (body : String)
  | fetchClear
  | idbOpen (name : String) (version : Nat)
  | idbGet (key : Option String)
  | idbPut (record : ConversationRecord)
  | idbDelete (key : Option String)
  | restoreCall (contextData : List Message)
  | clearContainer
  | hideWelcome
  | renderMessage (text : String) (sender : String) (saveToContext : Bool)
  | toast (message : String) (kind : String) (duration : Nat)
  | setInterval (period : Nat)
  | addBeforeUnload
  | consoleError (message : String)
deriving DecidableEq, Repr

/-- How an `async` method ends: its promise resolves or rejects. -/
inductive Completion where
  | resolved
  | rejected (error : String)
deriving DecidableEq, Repr

/-- The engine together with the contents of the local object store and the
trace of effects issued so far. -/
structure Sys where
  mgr : ContextMemoryManager
  store : List ConversationRecord
  trace : List Effect
deriving DecidableEq, Repr

/-! ## JavaScript primitives -/

/-- One-argument `Array.prototype.slice(start)`: a negative `start` counts from
the end (clamped at 0), a non-negative one from the front. -/
def jsSlice {α : Type} (xs : List α) (start : Int) : List α :=
  if start < 0 then xs.drop (Int.toNat ((xs.length : Int) + start))
  else xs.drop (Int.toNat start)

/-- The expression `timestamp || fallback` for a string-or-null `timestamp`: null and the
empty string are falsy. -/
def jsOr (timestamp : Option String) (fallback : String) : String :=
  match timestamp with
  | none => fallback
  | some t => if t = "" then fallback else t

/-- Object-store `put`: replaces the record with the same key, or adds it. -/
def storePut (store : List ConversationRecord) (r : ConversationRecord) :
    List ConversationRecord :=
  r :: store.filter (fun x => decide (x.session_id ≠ r.session_id))

/-- Object-store `get` by key. -/
def storeGet (store : List ConversationRecord) (key : Option String) :
    Option ConversationRecord :=
  store.find? (fun x => decide (x.session_id = key))

/-- Object-store `delete` by key. -/
def storeDelete (store : List ConversationRecord) (key : Option String) :
    List ConversationRecord :=
  store.filter (fun x => decide (x.session_id ≠ key))

/-- Appends one effect to the trace. -/
def Sys.emit (s : Sys) (e : Effect) : Sys :=
  { s with trace := s.trace ++ [e] }

/-- Replaces `this.contextData`. -/
def Sys.setContext (s : Sys) (msgs : List Message) : Sys :=
  { s with mgr := { s.mgr with contextData := msgs } }

/-! ## The engine -/

/-- The constructor's field initialisers (before `this.init()` runs). -/
def ContextMemoryManager.new : ContextMemoryManager :=
  { sessionId := none
    contextData := []
    maxLocalMessages := 50
    autoSaveInterval := 30000
    dbName := "EduBotContextDB"
    dbVersion := 1
    storeName := "conversations"
    db := none }

/-- The object literal `message` built by `addMessage`. -/
def mkMessage (sender text : String) (timestamp : Option String) (nowISO : String) : Message :=
  { sender := sender, text := text, timestamp := jsOr timestamp nowISO }

/-- Method `addMessage(sender, text, timestamp = null)`: push, then keep the last
`maxLocalMessages` entries when the length exceeds the limit. -/
def ContextMemoryManager.addMessage (m : ContextMemoryManager) (sender text : String)
    (timestamp : Option String) (nowISO : String) : ContextMemoryManager :=
  let pushed := m.contextData ++ [mkMessage sender text timestamp nowISO]
  if pushed.length > m.maxLocalMessages then
    { m with contextData := jsSlice pushed (-(m.maxLocalMessages : Int)) }
  else
    { m with contextData := pushed }

/-- Method `getRecentMessages(limit = 10)`. -/
def ContextMemoryManager.getRecentMessages (m : ContextMemoryManager) (limit : Int) :
    List Message :=
  jsSlice m.contextData (-limit)

/-- Method `getMessageCount()`. -/
def ContextMemoryManager.getMessageCount (m : ContextMemoryManager) : Nat :=
  m.contextData.length

/-- Method `hasContext()`. -/
def ContextMemoryManager.hasContext (m : ContextMemoryManager) : Bool :=
  decide (m.contextData.length > 0)

/-- Method `restoreMessagesToUI()`: returns at once when the page has no
`messagesContainer`; otherwise empties it, hides the welcome screen, hands every
message of `contextData` to `window.addMessage` (with `saveToContext = false`)
and shows one toast with the count. -/
def restoreMessagesToUI (env : Env) (s : Sys) : Sys :=
  let s0 := s.emit (Effect.restoreCall s.mgr.contextData)
  if !env.messagesContainer then s0
  else
    let s1 := s0.emit Effect.clearContainer
    let s2 := if env.welcomeScreen && decide (s.mgr.contextData.length > 0)
      then s1.emit Effect.hideWelcome else s1
    let s3 := if env.windowAddMessage
      then { s2 with trace := s2.trace ++
              s.mgr.contextData.map (fun msg => Effect.renderMessage msg.text msg.sender false) }
      else s2
    if env.toastManager && decide (s.mgr.contextData.length > 0) then
      s3.emit (Effect.toast
        ("Restored " ++ toString s.mgr.contextData.length ++ " messages from previous session")
        "success" 3000)
    else s3

/-- Method `loadFromAPI()`: the whole body sits in `try`/`catch`, so it always
returns an array. -/
def loadFromAPI (env : Env) (s : Sys) : List Message × Sys :=
  let s1 := s.emit Effect.fetchLoad
  match env.loadReply with
  | LoadReply.fetchThrows =>
      ([], s1.emit (Effect.consoleError "[Context] Error loading from API:"))
  | LoadReply.jsonThrows =>
      ([], s1.emit (Effect.consoleError "[Context] Error loading from API:"))
  | LoadReply.body status has_context data =>
      if status = "success" && has_context then
        match data with
        | none => ([], s1.emit (Effect.consoleError "[Context] Error loading from API:"))
        | some none => ([], s1)
        | some (some msgs) => (msgs, s1)
      else ([], s1)

/-- Method `loadFromIndexedDB()`: resolves `[]` without a handle; otherwise one
`get` by session id, whose error event also resolves `[]`. With a handle but a
null or undefined session id, `objectStore.get` throws `DataError` inside the
promise executor (no request is made) and the promise rejects. -/
def loadFromIndexedDB (env : Env) (s : Sys) : Except String (List Message) × Sys :=
  match s.mgr.db with
  | none => (Except.ok [], s)
  | some _ =>
      match s.mgr.sessionId with
      | none => (Except.error "DataError", s)
      | some _ =>
          let s1 := s.emit (Effect.idbGet s.mgr.sessionId)
          match env.getOutcome with
          | IDBOutcome.onsuccess =>
              match storeGet s.store s.mgr.sessionId with
              | some result => (Except.ok result.messages, s1)
              | none => (Except.ok [], s1)
          | IDBOutcome.onerror _ =>
              (Except.ok [],
                s1.emit (Effect.consoleError "[Context] Error loading from IndexedDB:"))

/-- The object literal `data` built in `saveToIndexedDB`: session id, the whole
working set, and the time of the save. -/
def saveRecord (m : ContextMemoryManager) (nowISO : String) : ConversationRecord :=
  { session_id := m.sessionId, messages := m.contextData, timestamp := nowISO }

/-- Method `saveToIndexedDB()`: nothing without a handle; otherwise one `put` of
the whole record; the promise rejects on the request's error event. With a handle
but a null or undefined session id the record has no valid key: `objectStore.put`
throws `DataError` (no request is made, nothing is stored) and the promise
rejects. -/
def saveToIndexedDB (env : Env) (s : Sys) : Completion × Sys :=
  match s.mgr.db with
  | none => (Completion.resolved, s)
  | some _ =>
      match s.mgr.sessionId with
      | none => (Completion.rejected "DataError", s)
      | some _ =>
          let data := saveRecord s.mgr env.nowISO
          let s1 := s.emit (Effect.idbPut data)
          match env.putOutcome with
          | IDBOutcome.onsuccess =>
              (Completion.resolved, { s1 with store := storePut s1.store data })
          | IDBOutcome.onerror err =>
              (Completion.rejected err,
                s1.emit (Effect.consoleError "[Context] Error saving to IndexedDB:"))

/-- Method `saveToAPI()`: one `POST` whose body is
`JSON.stringify(\x7bmessages: this.contextData\x7d)`; every failure is caught and logged. -/
def saveToAPI (env : Env) (s : Sys) : Sys :=
  let s1 := s.emit (Effect.fetchSave (env.stringify s.mgr.contextData))
  match env.saveReply with
  | PostReply.fetchThrows => s1.emit (Effect.consoleError "[Context] Error saving to API:")
  | PostReply.jsonThrows => s1.emit (Effect.consoleError "[Context] Error saving to API:")
  | PostReply.body status _ =>
      if status = "success" then s1
      else s1.emit (Effect.consoleError "[Context] Error saving to API:")

/-- Method `clearFromIndexedDB()`: nothing without a handle; otherwise one
`delete` by session id; the promise rejects on the request's error event. With a
handle but a null or undefined session id, `objectStore.delete` throws `DataError`
(no request is made) and the promise rejects. -/
def clearFromIndexedDB (env : Env) (s : Sys) : Completion × Sys :=
  match s.mgr.db with
  | none => (Completion.resolved, s)
  | some _ =>
      match s.mgr.sessionId with
      | none => (Completion.rejected "DataError", s)
      | some _ =>
          let s1 := s.emit (Effect.idbDelete s.mgr.sessionId)
          match env.deleteOutcome with
          | IDBOutcome.onsuccess =>
              (Completion.resolved,
                { s1 with store := storeDelete s1.store s.mgr.sessionId })
          | IDBOutcome.onerror err =>
              (Completion.rejected err,
                s1.emit (Effect.consoleError "[Context] Error clearing IndexedDB:"))

/-- Method `clearFromAPI()`: one `POST`; every failure is caught and logged. -/
def clearFromAPI (env : Env) (s : Sys) : Sys :=
  let s1 := s.emit Effect.fetchClear
  match env.clearReply with
  | PostReply.fetchThrows => s1.emit (Effect.consoleError "[Context] Error clearing from API:")
  | PostReply.jsonThrows => s1.emit (Effect.consoleError "[Context] Error clearing from API:")
  | PostReply.body status _ =>
      if status = "success" then s1
      else s1.emit (Effect.consoleError "[Context] Error clearing from API:")

/-- Method `loadContext()`: remote first; the local store is read only when the
remote answer is empty, and a non-empty local record is then pushed to the API.
The local load is awaited with no `try`, so its rejection rejects `loadContext`. -/
def loadContext (env : Env) (s : Sys) : Completion × Sys :=
  let api := loadFromAPI env s
  if api.1.length > 0 then
    (Completion.resolved, restoreMessagesToUI env (api.2.setContext api.1))
  else
    let loc := loadFromIndexedDB env api.2
    match loc.1 with
    | Except.error err => (Completion.rejected err, loc.2)
    | Except.ok localContext =>
        if localContext.length > 0 then
          (Completion.resolved,
            saveToAPI env (restoreMessagesToUI env (loc.2.setContext localContext)))
        else
          (Completion.resolved, loc.2)

/-- Method `saveContext()`: `await this.saveToIndexedDB()` and then
`await this.saveToAPI()`, with no `try` around either. -/
def saveContext (env : Env) (s : Sys) : Completion × Sys :=
  match saveToIndexedDB env s with
  | (Completion.rejected err, s1) => (Completion.rejected err, s1)
  | (Completion.resolved, s1) => (Completion.resolved, saveToAPI env s1)

/-- Method `clearContext()`: empties `contextData`, then
`await this.clearFromIndexedDB()` and `await this.clearFromAPI()`, with no
`try` around either. -/
def clearContext (env : Env) (s : Sys) : Completion × Sys :=
  let s0 := s.setContext []
  match clearFromIndexedDB env s0 with
  | (Completion.rejected err, s1) => (Completion.rejected err, s1)
  | (Completion.resolved, s1) => (Completion.resolved, clearFromAPI env s1)

/-- Method `generateSessionId()`. -/
def generateSessionId (env : Env) : String :=
  "session_" ++ toString env.dateNow ++ "_" ++ env.randomPart

/-- Method `initSessionId()`. -/
def initSessionId (env : Env) (s : Sys) : Sys :=
  let s1 := s.emit Effect.fetchSessionId
  match env.sessionReply with
  | SessionReply.fetchThrows =>
      { s1.emit (Effect.consoleError "[Context] Error getting session ID:") with
        mgr := { s1.mgr with sessionId := some (generateSessionId env) } }
  | SessionReply.jsonThrows =>
      { s1.emit (Effect.consoleError "[Context] Error getting session ID:") with
        mgr := { s1.mgr with sessionId := some (generateSessionId env) } }
  | SessionReply.body status session_id =>
      if status = "success" then { s1 with mgr := { s1.mgr with sessionId := session_id } }
      else { s1 with mgr := { s1.mgr with sessionId := some (generateSessionId env) } }

/-- Method `initIndexedDB()`: the promise resolves with the handle stored in
`this.db` on `onsuccess` and rejects on `onerror`. -/
def initIndexedDB (env : Env) (s : Sys) : Completion × Sys :=
  let s1 := s.emit (Effect.idbOpen s.mgr.dbName s.mgr.dbVersion)
  match env.openOutcome with
  | IDBOutcome.onsuccess =>
      (Completion.resolved,
        { s1 with mgr := { s1.mgr with
            db := some { name := s.mgr.dbName, version := s.mgr.dbVersion } } })
  | IDBOutcome.onerror err =>
      (Completion.rejected err, s1.emit (Effect.consoleError "[Context] IndexedDB error:"))

/-- Method `startAutoSave()`: registers the interval timer. -/
def startAutoSave (s : Sys) : Sys :=
  s.emit (Effect.setInterval s.mgr.autoSaveInterval)

/-- Method `init()`: four awaited or direct steps in a row and the `beforeunload`
listener, with no `try` around any of them. -/
def init (env : Env) (s : Sys) : Completion × Sys :=
  let s1 := initSessionId env s
  match initIndexedDB env s1 with
  | (Completion.rejected err, s2) => (Completion.rejected err, s2)
  | (Completion.resolved, s2) =>
      match loadContext env s2 with
      | (Completion.rejected err, s3) => (Completion.rejected err, s3)
      | (Completion.resolved, s3) =>
          (Completion.resolved, (startAutoSave s3).emit Effect.addBeforeUnload)

/-- One engine call, with the environment it runs in. -/
inductive Action where
  | loadContext (env : Env)
  | addMessage (sender text : String) (timestamp : Option String) (nowISO : String)
  | clearContext (env : Env)
  | saveContext (env : Env)

/-- Runs one call; a rejected promise leaves the state it had reached. -/
def step (s : Sys) (a : Action) : Sys :=
  match a with
  | Action.loadContext env => (loadContext env s).2
  | Action.addMessage sender text timestamp nowISO =>
      { s with mgr := s.mgr.addMessage sender text timestamp nowISO }
  | Action.clearContext env => (clearContext env s).2
  | Action.saveContext env => (saveContext env s).2

/-- Runs a sequence of calls, first to last. -/
def run (s : Sys) (as : List Action) : Sys :=
  as.foldl step s

/-- The system right after the constructor's field initialisers: the engine of
`ContextMemoryManager.new`, an empty trace, and whatever the local store holds. -/
def initialSys (store : List ConversationRecord) : Sys :=
  { mgr := ContextMemoryManager.new, store := store, trace := [] }

/-- Arguments of one `addMessage` call, with the clock value it reads. -/
structure AddCall where
  sender : String
  text : String
  timestamp : Option String
  nowISO : String
deriving DecidableEq, Repr

/-- The message a call appends. -/
def AddCall.message (c : AddCall) : Message :=
  mkMessage c.sender c.text c.timestamp c.nowISO

/-- Applies a sequence of `addMessage` calls, first to last. -/
def addAll (m : ContextMemoryManager) (calls : List AddCall) : ContextMemoryManager :=
  calls.foldl (fun acc c => acc.addMessage c.sender c.text c.timestamp c.nowISO) m

/-- Effects issued between two states of one run (the trace only grows, so these
are the entries added after `before`). -/
def issued (before after : Sys) : List Effect :=
  after.trace.drop before.trace.length

/-- The effect is a `POST` to `/api/context/save`. -/
def Effect.isRemoteSave : Effect → Bool
  | Effect.fetchSave _ => true
  | _ => false

/-- The effect is a request to IndexedDB (`open`, `get`, `put` or `delete`). -/
def Effect.isLocalRequest : Effect → Bool
  | Effect.idbOpen _ _ => true
  | Effect.idbGet _ => true
  | Effect.idbPut _ => true
  | Effect.idbDelete _ => true
  | _ => false

/-- The effect is a call of `restoreMessagesToUI`. -/
def Effect.isRestoreCall : Effect → Bool
  | Effect.restoreCall _ => true
  | _ => false

/-- The effect touches only the page or the console: no store request, no
network call, no call of `restoreMessagesToUI`. -/
def Effect.isPageOnly (e : Effect) : Bool :=
  !e.isRemoteSave && !e.isLocalRequest && !e.isRestoreCall &&
    decide (e ≠ Effect.fetchLoad) && decide (e ≠ Effect.fetchClear) &&
    decide (e ≠ Effect.fetchSessionId)

/-! ## Sample inputs -/

/-- Sample environment: every request succeeds, the server has no context, the
page has all its elements. -/
def okEnv : Env :=
  { nowISO := "2024-01-01T00:00:00.000Z"
    dateNow := 1704067200000
    randomPart := "k3j9x0a1b"
    stringify := fun msgs => String.join (msgs.map (fun m => m.sender ++ ":" ++ m.text ++ ";"))
    sessionReply := SessionReply.body "success" (some "srv-1")
    loadReply := LoadReply.body "success" false none
    saveReply := PostReply.body "success" ""
    clearReply := PostReply.body "success" ""
    openOutcome := IDBOutcome.onsuccess
    getOutcome := IDBOutcome.onsuccess
    putOutcome := IDBOutcome.onsuccess
    deleteOutcome := IDBOutcome.onsuccess
    messagesContainer := true
    welcomeScreen := true
    windowAddMessage := true
    toastManager := true }

/-- Sample message `user: "hi"`. -/
def msgHi : Message :=
  { sender := "user", text := "hi", timestamp := "t1" }

/-- Sample message `bot: "hello"`. -/
def msgHello : Message :=
  { sender := "bot", text := "hello", timestamp := "t2" }

/-- Sample engine after a successful start-up: session `srv-1`, open store handle,
empty working set. -/
def readyMgr : ContextMemoryManager :=
  { ContextMemoryManager.new with
    sessionId := some "srv-1"
    db := some { name := "EduBotContextDB", version := 1 } }

/-- Sample system: `readyMgr` with a local record `[msgHi]` for its session. -/
def localOnlySys : Sys :=
  { mgr := readyMgr
    store := [{ session_id := some "srv-1", messages := [msgHi], timestamp := "t1" }]
    trace := [] }

/-- Sample system: `readyMgr` holding the working set `[msgHi, msgHello]`, with an
empty local store. -/
def chatSys : Sys :=
  { mgr := { readyMgr with contextData := [msgHi, msgHello] }, store := [], trace := [] }

/-- Sample environment: as `okEnv`, thirty seconds later. -/
def laterEnv : Env :=
  { okEnv with nowISO := "2024-01-01T00:00:30.000Z", dateNow := 1704067230000 }

/-- Sample environment: as `okEnv`, but the `put` request fires `onerror`. -/
def putFailsEnv : Env :=
  { okEnv with putOutcome := IDBOutcome.onerror "QuotaExceededError" }

/-- Sample environment: as `okEnv`, but the `delete` request fires `onerror`. -/
def deleteFailsEnv : Env :=
  { okEnv with deleteOutcome := IDBOutcome.onerror "TransactionInactiveError" }

/-- Sample environment: `indexedDB.open` fires `onerror` while the server holds
the record `[msgHello]`. -/
def openFailsEnv : Env :=
  { okEnv with
    openOutcome := IDBOutcome.onerror "SecurityError"
    loadReply := LoadReply.body "success" true (some (some [msgHello])) }

/-- Sample environment: the server holds a record of 51 messages. -/
def bigRemoteEnv : Env :=
  { okEnv with loadReply := LoadReply.body "success" true (some (some (List.replicate 51 msgHi))) }

/-- The callback that `startAutoSave` hands to `setInterval`: call `saveContext`
when `contextData` is non-empty, do nothing otherwise. The callback does not
await the save. -/
def autoSaveTick (env : Env) (s : Sys) : Sys :=
  if s.mgr.contextData.length > 0 then (saveContext env s).2 else s

/-- Method `getRecentMessages(limit)` as a call on the system: the value returned
and the system afterwards. The body is a single `return` of a `slice`. -/
def Sys.getRecentMessages (s : Sys) (limit : Int) : List Message × Sys :=
  (s.mgr.getRecentMessages limit, s)

/-- Method `getMessageCount()` as a call on the system. -/
def Sys.getMessageCount (s : Sys) : Nat × Sys :=
  (s.mgr.getMessageCount, s)

/-- Method `hasContext()` as a call on the system. -/
def Sys.hasContext (s : Sys) : Bool × Sys :=
  (s.mgr.hasContext, s)

/-- The effect is a write to a durable tier: a local `put` or a remote save. -/
def Effect.isDurableWrite : Effect → Bool
  | Effect.idbPut _ => true
  | Effect.fetchSave _ => true
  | _ => false

/-- The effect is a `POST` to `/api/context/clear`. -/
def Effect.isRemoteClear : Effect → Bool
  | Effect.fetchClear => true
  | _ => false

/-- Sample environment: as `okEnv`, but the clear request fails on the network and
the server still answers a load with `[msgHi, msgHello]`. -/
def clearFailsEnv : Env :=
  { okEnv with
    clearReply := PostReply.fetchThrows
    loadReply := LoadReply.body "success" true (some (some [msgHi, msgHello])) }

/-- The effect is a message handed to the render callback `window.addMessage`. -/
def Effect.isRender : Effect → Bool
  | Effect.renderMessage _ _ _ => true
  | _ => false

/-- The effect is a toast notification. -/
def Effect.isToast : Effect → Bool
  | Effect.toast _ _ _ => true
  | _ => false

/-- The effect is traffic with a tier or the console: a load or save request to
the API, a `get` on the local store, or a console error. -/
def Effect.isTierTraffic : Effect → Bool
  | Effect.fetchLoad => true
  | Effect.fetchSave _ => true
  | Effect.idbGet _ => true
  | Effect.consoleError _ => true
  | _ => false

/-- The effects of one `restoreMessagesToUI` call on the working set
`contextData`, as a list: the call itself, then (only with a `messagesContainer`)
the emptied container, the hidden welcome screen, one render per message when
`window.addMessage` is defined, and one toast when `window.toastManager` is
defined and there are messages. -/
def restoreEffects (env : Env) (contextData : List Message) : List Effect :=
  Effect.restoreCall contextData ::
    (if !env.messagesContainer then []
     else
      Effect.clearContainer ::
        ((if env.welcomeScreen && decide (contextData.length > 0)
            then [Effect.hideWelcome] else []) ++
          (if env.windowAddMessage
            then contextData.map (fun msg => Effect.renderMessage msg.text msg.sender false)
            else []) ++
          (if env.toastManager && decide (contextData.length > 0) then
            [Effect.toast
              ("Restored " ++ toString contextData.length ++ " messages from previous session")
              "success" 3000]
           else [])))

/-- The call `window.contextMemory.addMessage('bot', ...)` made by
`ImageRecognitionManager.displayOCRResult`: sender `'bot'`, text
`OCR Result: ` followed by `result.text || 'No text detected'`, no timestamp. -/
def ocrAddCall (resultText : String) (nowISO : String) : AddCall :=
  { sender := "bot"
    text := "OCR Result: " ++ (if resultText = "" then "No text detected" else resultText)
    timestamp := none
    nowISO := nowISO }

/-- Sample environment: as `okEnv`, but the `get` request fires `onerror`. -/
def getFailsEnv : Env :=
  { okEnv with getOutcome := IDBOutcome.onerror "UnknownError" }

/-- Sample system: as `localOnlySys` (the store holds `[msgHi]` for `srv-1`), but the
engine holds no store handle. -/
def noHandleSys : Sys :=
  { mgr := { readyMgr with db := none }, store := localOnlySys.store, trace := [] }

/-- Sample environment: as `okEnv`, but the session-id endpoint answers success
with no `session_id` member. -/
def successNoIdEnv : Env :=
  { okEnv with sessionReply := SessionReply.body "success" none }

/-- Sample environment: as `okEnv`, on a page without `window.toastManager`. -/
def noToastEnv : Env :=
  { okEnv with toastManager := false }

/-- Sample environment: as `okEnv`, on a page without the `messagesContainer`
element. -/
def noContainerEnv : Env :=
  { okEnv with messagesContainer := false }

/-! ## Upload validation (`static/js/image-recognition.js`) -/

/-- The members of a `File` that `validateFile` reads. -/
structure UploadFile where
  type : String
  size : Nat
deriving DecidableEq, Repr

/-- Fields of `ImageRecognitionManager` that `validateFile` reads. -/
structure ImageRecognitionManager where
  isProcessing : Bool
  maxFileSize : Nat
  allowedTypes : List String
deriving DecidableEq, Repr

/-- The constructor's field initialisers. -/
def ImageRecognitionManager.new : ImageRecognitionManager :=
  { isProcessing := false
    maxFileSize := 10 * 1024 * 1024
    allowedTypes :=
      ["image/png", "image/jpeg", "image/jpg", "image/gif", "image/webp", "image/bmp"] }

/-- The object returned by `validateFile`. -/
structure Validation where
  valid : Bool
  error : Option String
deriving DecidableEq, Repr

/-- Method `validateFile(file)`: the type check first, then the size check. The
size in the message is `maxFileSize / (1024 * 1024)`, a whole number for the
constructor's limit. -/
def ImageRecognitionManager.validateFile (m : ImageRecognitionManager) (file : UploadFile) :
    Validation :=
  if !m.allowedTypes.contains file.type then
    { valid := false
      error := some "Invalid file type. Please upload an image (PNG, JPG, GIF, WebP, BMP)" }
  else if file.size > m.maxFileSize then
    { valid := false
      error := some ("File too large. Maximum size is " ++
        toString (m.maxFileSize / (1024 * 1024)) ++ "MB") }
  else
    { valid := true, error := none }

/-! ## Autocomplete selection (`static/js/autocomplete.js`) -/

/-- One entry of `currentSuggestions`. -/
structure Suggestion where
  text : String
  icon : String
  source : String
deriving DecidableEq, Repr

/-- Effects of the autocomplete key handling on the event and the page. -/
inductive AcEffect where
  | preventDefault
  | focusInput
  | addToHistory (query : String)
  | haptic
deriving DecidableEq, Repr

/-- The state `handleKeyDown` and `selectSuggestion` work on: the input's value,
whether the suggestions container is displayed, the number of rendered
`.autocomplete-suggestion` nodes, which of them carries the class `selected`, and
the manager's `currentSuggestions` and `selectedIndex`. -/
structure AutocompleteManager where
  inputValue : String
  visible : Bool
  rendered : Nat
  highlighted : Option Nat
  currentSuggestions : List Suggestion
  selectedIndex : Int
  hapticFeedback : Bool
  log : List AcEffect
deriving DecidableEq, Repr

/-- Method `hideSuggestions()`. -/
def AutocompleteManager.hideSuggestions (a : AutocompleteManager) : AutocompleteManager :=
  { a with visible := false, selectedIndex := -1 }

/-- Method `highlightSuggestion()`: clears every `selected` class and sets it on
the node at `selectedIndex` when that index is a rendered node. -/
def AutocompleteManager.highlightSuggestion (a : AutocompleteManager) : AutocompleteManager :=
  if a.selectedIndex ≥ 0 ∧ a.selectedIndex < (a.rendered : Int) then
    { a with highlighted := some a.selectedIndex.toNat }
  else
    { a with highlighted := none }

/-- Method `selectSuggestion(index)`. -/
def AutocompleteManager.selectSuggestion (a : AutocompleteManager) (index : Int) :
    AutocompleteManager :=
  if index ≥ 0 ∧ index < (a.currentSuggestions.length : Int) then
    match a.currentSuggestions.get? index.toNat with
    | some suggestion =>
        let a1 := { a with inputValue := suggestion.text }.hideSuggestions
        let a2 := { a1 with
          log := a1.log ++ [AcEffect.focusInput, AcEffect.addToHistory suggestion.text] }
        if a.hapticFeedback then { a2 with log := a2.log ++ [AcEffect.haptic] } else a2
    | none => a
  else a

/-- Method `handleKeyDown(e)`, by the value of `e.key`. -/
def AutocompleteManager.handleKeyDown (a : AutocompleteManager) (key : String) :
    AutocompleteManager :=
  if key = "ArrowDown" then
    { a with
      log := a.log ++ [AcEffect.preventDefault]
      selectedIndex := min (a.selectedIndex + 1) ((a.rendered : Int) - 1) }.highlightSuggestion
  else if key = "ArrowUp" then
    { a with
      log := a.log ++ [AcEffect.preventDefault]
      selectedIndex := max (a.selectedIndex - 1) (-1) }.highlightSuggestion
  else if key = "Enter" then
    if a.selectedIndex ≥ 0 then
      AutocompleteManager.selectSuggestion
        { a with log := a.log ++ [AcEffect.preventDefault] } a.selectedIndex
    else a
  else if key = "Escape" then
    { a with log := a.log ++ [AcEffect.preventDefault] }.hideSuggestions
  else a

/-- Handles a sequence of key events, first to last. -/
def AutocompleteManager.handleKeys (a : AutocompleteManager) (keys : List String) :
    AutocompleteManager :=
  keys.foldl AutocompleteManager.handleKeyDown a

/-- Sample autocomplete state: two rendered suggestions, nothing selected. -/
def twoSuggestions : AutocompleteManager :=
  { inputValue := "wh"
    visible := true
    rendered := 2
    highlighted := none
    currentSuggestions := [Suggestion.mk "what is ai" "i" "faq", Suggestion.mk "who" "i" "faq"]
    selectedIndex := -1
    hapticFeedback := false
    log := [] }

/-! ## Toast stack (`static/js/animations.js`) -/

/-- A toast element: its identity (a fresh number per created element), the
message and type it was created with, its `style.top`, and whether it carries the
class `hiding`. -/
structure Toast where
  id : Nat
  message : String
  type : String
  top : Option String
  hidingClass : Bool
deriving DecidableEq, Repr

/-- Fields of `ToastManager`, with the number of elements created so far (the
identity of the next one) and the toasts that `hide` was called on. -/
structure ToastManager where
  toasts : List Toast
  maxToasts : Nat
  created : Nat
  hidden : List Toast
deriving DecidableEq, Repr

/-- The constructor. -/
def ToastManager.new : ToastManager :=
  { toasts := [], maxToasts := 3, created := 0, hidden := [] }

/-- The loop `while (this.toasts.length > this.maxToasts)` of `manageToastStack`:
returns the toasts left and the toasts shifted off the front, oldest first. -/
def shiftOldest (maxToasts : Nat) : List Toast → List Toast × List Toast
  | [] => ([], [])
  | t :: rest =>
      if (t :: rest).length > maxToasts then
        ((shiftOldest maxToasts rest).1, t :: (shiftOldest maxToasts rest).2)
      else (t :: rest, [])

/-- The `forEach` of `manageToastStack`, from position `index` on: sets `style.top`
to `20 + index * 100` pixels. -/
def positionToasts (index : Nat) : List Toast → List Toast
  | [] => []
  | t :: rest =>
      { t with top := some (toString (20 + index * 100) ++ "px") } ::
        positionToasts (index + 1) rest

/-- Method `manageToastStack()`; `hide` marks each shifted toast as `hiding`. -/
def ToastManager.manageToastStack (tm : ToastManager) : ToastManager :=
  { tm with
    toasts := positionToasts 0 (shiftOldest tm.maxToasts tm.toasts).1
    hidden := tm.hidden ++
      (shiftOldest tm.maxToasts tm.toasts).2.map (fun t => { t with hidingClass := true }) }

/-- Method `show(message, type, duration)`: creates the element, tracks it, and
manages the stack; returns the element and the manager afterwards. The timer that
hides the toast after `duration` fires later. -/
def ToastManager.show (tm : ToastManager) (message type : String) (_duration : Nat) :
    Toast × ToastManager :=
  let toast : Toast :=
    { id := tm.created, message := message, type := type, top := none, hidingClass := false }
  let tm1 := { tm with toasts := tm.toasts ++ [toast], created := tm.created + 1 }
  (toast, tm1.manageToastStack)

/-! ## Lemmas on `addMessage` -/

theorem jsSlice_neg_of_pos {α : Type} (xs : List α) (L : Nat) (hL : 1 ≤ L) :
    jsSlice xs (-(L : Int)) = xs.drop (xs.length - L) := by
  unfold jsSlice
  have h : (-(L : Int)) < 0 := by omega
  rw [if_pos h]
  congr 1
  omega

theorem addMessage_maxLocalMessages (m : ContextMemoryManager) (sender text : String)
    (timestamp : Option String) (nowISO : String) :
    (m.addMessage sender text timestamp nowISO).maxLocalMessages = m.maxLocalMessages := by
  unfold ContextMemoryManager.addMessage
  simp only []
  split <;> rfl

theorem addMessage_contextData (m : ContextMemoryManager) (sender text : String)
    (timestamp : Option String) (nowISO : String) (hL : 1 ≤ m.maxLocalMessages) :
    (m.addMessage sender text timestamp nowISO).contextData =
      (m.contextData ++ [mkMessage sender text timestamp nowISO]).drop
        (m.contextData.length + 1 - m.maxLocalMessages) := by
  unfold ContextMemoryManager.addMessage
  simp only []
  split
  · rw [jsSlice_neg_of_pos _ _ hL]
    simp
  · rename_i h
    have h0 : m.contextData.length + 1 - m.maxLocalMessages = 0 := by
      simp only [List.length_append, List.length_singleton] at h
      omega
    rw [h0]
    simp

theorem addAll_concat (m : ContextMemoryManager) (calls : List AddCall) (c : AddCall) :
    addAll m (calls ++ [c]) =
      (addAll m calls).addMessage c.sender c.text c.timestamp c.nowISO := by
  simp [addAll, List.foldl_append]

theorem addAll_maxLocalMessages (m : ContextMemoryManager) (calls : List AddCall) :
    (addAll m calls).maxLocalMessages = m.maxLocalMessages := by
  induction calls using List.reverseRecOn with
  | nil => rfl
  | append_singleton cs c ih => rw [addAll_concat, addMessage_maxLocalMessages, ih]

theorem addAll_contextData (L : Nat) (hL : 1 ≤ L) (m : ContextMemoryManager)
    (hm : m.contextData = []) (hmax : m.maxLocalMessages = L) (calls : List AddCall) :
    (addAll m calls).contextData =
      (calls.map AddCall.message).drop (calls.length - min calls.length L) := by
  induction calls using List.reverseRecOn with
  | nil => simp [addAll, hm]
  | append_singleton cs c ih =>
    have hmax2 : (addAll m cs).maxLocalMessages = L := by
      rw [addAll_maxLocalMessages, hmax]
    rw [addAll_concat, addMessage_contextData _ _ _ _ _ (by omega), hmax2, ih]
    simp only [List.map_append, List.map_cons, List.map_nil, List.length_append,
      List.length_singleton, List.length_drop, List.length_map]
    have hmsg : mkMessage c.sender c.text c.timestamp c.nowISO = c.message := rfl
    rw [hmsg]
    rcases Nat.lt_or_ge cs.length L with h | h
    · have e1 : cs.length - min cs.length L = 0 := by omega
      have e2 : cs.length - (cs.length - min cs.length L) + 1 - L = 0 := by omega
      have e3 : cs.length + 1 - min (cs.length + 1) L = 0 := by omega
      rw [e2, e1, e3]
      simp
    · have e1 : cs.length - min cs.length L = cs.length - L := by omega
      have e2 : cs.length - (cs.length - min cs.length L) + 1 - L = 1 := by omega
      have e3 : cs.length + 1 - min (cs.length + 1) L = (cs.length - L) + 1 := by omega
      rw [e2, e1, e3]
      rw [List.drop_append_of_le_length (by simp; omega),
        List.drop_append_of_le_length (by simp; omega)]
      rw [List.drop_drop]

/-! ## Lemmas on the trace and on the tier operations -/

@[simp] theorem emit_mgr (s : Sys) (e : Effect) : (s.emit e).mgr = s.mgr := rfl

@[simp] theorem emit_store (s : Sys) (e : Effect) : (s.emit e).store = s.store := rfl

@[simp] theorem emit_trace (s : Sys) (e : Effect) : (s.emit e).trace = s.trace ++ [e] := rfl

@[simp] theorem setContext_contextData (s : Sys) (msgs : List Message) :
    (s.setContext msgs).mgr.contextData = msgs := rfl

@[simp] theorem setContext_store (s : Sys) (msgs : List Message) :
    (s.setContext msgs).store = s.store := rfl

@[simp] theorem setContext_trace (s : Sys) (msgs : List Message) :
    (s.setContext msgs).trace = s.trace := rfl

@[simp] theorem setContext_db (s : Sys) (msgs : List Message) :
    (s.setContext msgs).mgr.db = s.mgr.db := rfl

@[simp] theorem setContext_sessionId (s : Sys) (msgs : List Message) :
    (s.setContext msgs).mgr.sessionId = s.mgr.sessionId := rfl

@[simp] theorem setContext_maxLocalMessages (s : Sys) (msgs : List Message) :
    (s.setContext msgs).mgr.maxLocalMessages = s.mgr.maxLocalMessages := rfl

theorem issued_of_trace (s t : Sys) (es : List Effect) (h : t.trace = s.trace ++ es) :
    issued s t = es := by
  simp [issued, h]

/-- The restoration step only appends to the trace: first the call marker that
carries the working set, then page-only effects. -/
theorem restoreMessagesToUI_spec (env : Env) (s : Sys) :
    ∃ ui : List Effect, (∀ e ∈ ui, e.isPageOnly = true) ∧
      (restoreMessagesToUI env s).mgr = s.mgr ∧
      (restoreMessagesToUI env s).store = s.store ∧
      (restoreMessagesToUI env s).trace =
        s.trace ++ Effect.restoreCall s.mgr.contextData :: ui := by
  unfold restoreMessagesToUI
  simp only []
  split
  · exact ⟨[], by simp, rfl, rfl, by simp⟩
  · refine ⟨(Effect.clearContainer ::
        (if env.welcomeScreen && decide (s.mgr.contextData.length > 0)
          then [Effect.hideWelcome] else [])) ++
        (if env.windowAddMessage
          then s.mgr.contextData.map (fun msg => Effect.renderMessage msg.text msg.sender false)
          else []) ++
        (if env.toastManager && decide (s.mgr.contextData.length > 0) then
          [Effect.toast ("Restored " ++ toString s.mgr.contextData.length ++
            " messages from previous session") "success" 3000] else []), ?_, ?_, ?_, ?_⟩
    · intro e he
      simp only [List.mem_append, List.mem_cons] at he
      rcases he with (((rfl | he) | he) | he)
      · rfl
      · split at he
        · simp only [List.mem_singleton] at he; subst he; rfl
        · simp at he
      · split at he
        · simp only [List.mem_map] at he
          obtain ⟨m, _, rfl⟩ := he
          rfl
        · simp at he
      · split at he
        · simp only [List.mem_singleton] at he; subst he; rfl
        · simp at he
    · split_ifs <;> rfl
    · split_ifs <;> rfl
    · split_ifs <;> simp

/-- The remote load never touches the engine or the store, and issues exactly the
`GET` plus, on a caught exception, one console error. -/
theorem loadFromAPI_spec (env : Env) (s : Sys) :
    (loadFromAPI env s).2.mgr = s.mgr ∧ (loadFromAPI env s).2.store = s.store ∧
    ∃ logs : List Effect, (∀ e ∈ logs, e.isPageOnly = true) ∧
      (loadFromAPI env s).2.trace = s.trace ++ Effect.fetchLoad :: logs := by
  unfold loadFromAPI
  simp only []
  split
  · exact ⟨rfl, rfl, [Effect.consoleError "[Context] Error loading from API:"],
      by simp [Effect.isPageOnly, Effect.isRemoteSave,
      Effect.isLocalRequest, Effect.isRestoreCall], by simp⟩
  · exact ⟨rfl, rfl, [Effect.consoleError "[Context] Error loading from API:"],
      by simp [Effect.isPageOnly, Effect.isRemoteSave,
      Effect.isLocalRequest, Effect.isRestoreCall], by simp⟩
  · split
    · split
      · exact ⟨rfl, rfl, [Effect.consoleError "[Context] Error loading from API:"],
          by simp [Effect.isPageOnly, Effect.isRemoteSave,
          Effect.isLocalRequest, Effect.isRestoreCall], by simp⟩
      · exact ⟨rfl, rfl, [], by simp, by simp⟩
      · exact ⟨rfl, rfl, [], by simp, by simp⟩
    · exact ⟨rfl, rfl, [], by simp, by simp⟩

/-- The value of the remote load depends on the reply only. -/
theorem loadFromAPI_fst (env : Env) (s t : Sys) :
    (loadFromAPI env s).1 = (loadFromAPI env t).1 := by
  unfold loadFromAPI
  simp only []
  split
  · rfl
  · rfl
  · split
    · split <;> rfl
    · rfl

/-- The outcome of the local load depends on the handle, the session id, the
store and the request outcome only. -/
theorem loadFromIndexedDB_fst (env : Env) (s t : Sys) (hm : t.mgr = s.mgr)
    (hs : t.store = s.store) :
    (loadFromIndexedDB env t).1 = (loadFromIndexedDB env s).1 := by
  unfold loadFromIndexedDB
  rw [hm, hs]
  split
  · rfl
  · split
    · rfl
    · simp only []
      split
      · split <;> rfl
      · rfl

/-- The local load never touches the engine or the store; it issues at most one
`get` and console errors. -/
theorem loadFromIndexedDB_spec (env : Env) (s : Sys) :
    (loadFromIndexedDB env s).2.mgr = s.mgr ∧ (loadFromIndexedDB env s).2.store = s.store ∧
    ∃ es : List Effect,
      (∀ e ∈ es, e.isRemoteSave = false ∧ e.isRestoreCall = false) ∧
      (loadFromIndexedDB env s).2.trace = s.trace ++ es := by
  unfold loadFromIndexedDB
  split
  · exact ⟨rfl, rfl, [], by simp, by simp⟩
  · split
    · exact ⟨rfl, rfl, [], by simp, by simp⟩
    · simp only []
      split
      · split
        · exact ⟨rfl, rfl, [Effect.idbGet s.mgr.sessionId],
            by simp [Effect.isRemoteSave, Effect.isRestoreCall], by simp⟩
        · exact ⟨rfl, rfl, [Effect.idbGet s.mgr.sessionId],
            by simp [Effect.isRemoteSave, Effect.isRestoreCall], by simp⟩
      · exact ⟨rfl, rfl, [Effect.idbGet s.mgr.sessionId,
            Effect.consoleError "[Context] Error loading from IndexedDB:"],
          by simp [Effect.isRemoteSave, Effect.isRestoreCall], by simp⟩

/-- The remote save never touches the engine or the store; it issues exactly one
`POST` carrying the serialised working set, plus at most one console error. -/
theorem saveToAPI_spec (env : Env) (s : Sys) :
    (saveToAPI env s).mgr = s.mgr ∧ (saveToAPI env s).store = s.store ∧
    ∃ logs : List Effect, (∀ e ∈ logs, e.isPageOnly = true) ∧
      (saveToAPI env s).trace =
        s.trace ++ Effect.fetchSave (env.stringify s.mgr.contextData) :: logs := by
  unfold saveToAPI
  simp only []
  split
  · exact ⟨rfl, rfl, [Effect.consoleError "[Context] Error saving to API:"],
      by simp [Effect.isPageOnly, Effect.isRemoteSave,
      Effect.isLocalRequest, Effect.isRestoreCall], by simp⟩
  · exact ⟨rfl, rfl, [Effect.consoleError "[Context] Error saving to API:"],
      by simp [Effect.isPageOnly, Effect.isRemoteSave,
      Effect.isLocalRequest, Effect.isRestoreCall], by simp⟩
  · split
    · exact ⟨rfl, rfl, [], by simp, by simp⟩
    · exact ⟨rfl, rfl, [Effect.consoleError "[Context] Error saving to API:"],
        by simp [Effect.isPageOnly, Effect.isRemoteSave,
        Effect.isLocalRequest, Effect.isRestoreCall], by simp⟩

theorem isPageOnly_not_remoteSave (e : Effect) (h : e.isPageOnly = true) :
    e.isRemoteSave = false := by
  cases e <;> simp_all [Effect.isPageOnly, Effect.isRemoteSave]

theorem isPageOnly_not_localRequest (e : Effect) (h : e.isPageOnly = true) :
    e.isLocalRequest = false := by
  cases e <;> simp_all [Effect.isPageOnly, Effect.isLocalRequest]

theorem isPageOnly_not_restoreCall (e : Effect) (h : e.isPageOnly = true) :
    e.isRestoreCall = false := by
  cases e <;> simp_all [Effect.isPageOnly, Effect.isRestoreCall]

theorem filter_eq_nil_of_forall_false (p : Effect → Bool) (es : List Effect)
    (h : ∀ e ∈ es, p e = false) : es.filter p = [] := by
  rw [List.filter_eq_nil_iff]
  intro e he
  simp [h e he]

/-! ## Lemmas on `loadContext` -/

theorem loadContext_remote (env : Env) (s : Sys) (h : (loadFromAPI env s).1 ≠ []) :
    loadContext env s = (Completion.resolved,
      restoreMessagesToUI env ((loadFromAPI env s).2.setContext (loadFromAPI env s).1)) := by
  unfold loadContext
  simp only []
  rw [if_pos (List.length_pos.mpr h)]

theorem loadContext_local (env : Env) (s : Sys) (S : List Message)
    (h1 : (loadFromAPI env s).1 = [])
    (h2 : (loadFromIndexedDB env (loadFromAPI env s).2).1 = Except.ok S) (hS : S ≠ []) :
    loadContext env s = (Completion.resolved,
      saveToAPI env (restoreMessagesToUI env
        ((loadFromIndexedDB env (loadFromAPI env s).2).2.setContext S))) := by
  unfold loadContext
  simp only []
  rw [if_neg (by simp [h1]), h2]
  simp only []
  rw [if_pos (List.length_pos.mpr hS)]

theorem loadContext_none (env : Env) (s : Sys) (h1 : (loadFromAPI env s).1 = [])
    (h2 : (loadFromIndexedDB env (loadFromAPI env s).2).1 = Except.ok []) :
    loadContext env s =
      (Completion.resolved, (loadFromIndexedDB env (loadFromAPI env s).2).2) := by
  unfold loadContext
  simp only []
  rw [if_neg (by simp [h1]), h2]
  simp

theorem loadContext_rejected (env : Env) (s : Sys) (err : String)
    (h1 : (loadFromAPI env s).1 = [])
    (h2 : (loadFromIndexedDB env (loadFromAPI env s).2).1 = Except.error err) :
    loadContext env s =
      (Completion.rejected err, (loadFromIndexedDB env (loadFromAPI env s).2).2) := by
  unfold loadContext
  simp only []
  rw [if_neg (by simp [h1]), h2]

/-- The local load seen by `loadContext` is the local load of the starting state. -/
theorem loadFromIndexedDB_after_api (env : Env) (s : Sys) :
    (loadFromIndexedDB env (loadFromAPI env s).2).1 = (loadFromIndexedDB env s).1 :=
  loadFromIndexedDB_fst env s _ (loadFromAPI_spec env s).1 (loadFromAPI_spec env s).2.1

/-- With a handle, a session id, a successful `get` and a stored record, the local
load resolves with that record's messages. -/
theorem loadFromIndexedDB_hit (env : Env) (s : Sys) (h : IDBDatabase) (sid : String)
    (r : ConversationRecord)
    (hdb : s.mgr.db = some h) (hsid : s.mgr.sessionId = some sid)
    (hget : env.getOutcome = IDBOutcome.onsuccess)
    (hrec : storeGet s.store (some sid) = some r) :
    (loadFromIndexedDB env s).1 = Except.ok r.messages := by
  unfold loadFromIndexedDB
  rw [hdb, hsid]
  simp only [hget, hrec]

/-- A non-empty local load comes from a handle, a session id, a successful `get`
and a stored record with those messages. -/
theorem loadFromIndexedDB_ne_nil (env : Env) (s : Sys) (S : List Message)
    (hok : (loadFromIndexedDB env s).1 = Except.ok S) (hne : S ≠ []) :
    ∃ h sid r, s.mgr.db = some h ∧ s.mgr.sessionId = some sid ∧
      env.getOutcome = IDBOutcome.onsuccess ∧
      storeGet s.store (some sid) = some r ∧ r.messages = S := by
  unfold loadFromIndexedDB at hok
  split at hok
  · simp only [Except.ok.injEq] at hok
    exact absurd hok.symm hne
  · rename_i h hdb
    split at hok
    · simp at hok
    · rename_i sid hsid
      simp only [] at hok
      split at hok
      · rename_i hget
        split at hok
        · rename_i r hr
          simp only [Except.ok.injEq] at hok
          rw [hsid] at hr
          exact ⟨h, sid, r, hdb, hsid, hget, hr, hok⟩
        · simp only [Except.ok.injEq] at hok
          exact absurd hok.symm hne
      · simp only [Except.ok.injEq] at hok
        exact absurd hok.symm hne

/-- Trace and state of the remote-wins path. -/
theorem loadContext_remote_trace (env : Env) (s : Sys) (h : (loadFromAPI env s).1 ≠ []) :
    (loadContext env s).2.mgr.contextData = (loadFromAPI env s).1 ∧
    (loadContext env s).2.store = s.store ∧
    ∃ logs ui : List Effect, (∀ e ∈ logs, e.isPageOnly = true) ∧
      (∀ e ∈ ui, e.isPageOnly = true) ∧
      (loadContext env s).2.trace = s.trace ++ (Effect.fetchLoad :: logs ++
        Effect.restoreCall (loadFromAPI env s).1 :: ui) := by
  rw [loadContext_remote env s h]
  obtain ⟨hm, hs, logs, hlogs, ht⟩ := loadFromAPI_spec env s
  obtain ⟨ui, hui, rm, rs, rt⟩ :=
    restoreMessagesToUI_spec env ((loadFromAPI env s).2.setContext (loadFromAPI env s).1)
  refine ⟨?_, ?_, logs, ui, hlogs, hui, ?_⟩
  · simp only [rm, setContext_contextData]
  · simp only [rs, setContext_store, hs]
  · simp only [rt, setContext_trace, setContext_contextData, ht, List.append_assoc,
      List.cons_append]

/-- Trace and state of the promotion path. -/
theorem loadContext_local_trace (env : Env) (s : Sys) (S : List Message)
    (h1 : (loadFromAPI env s).1 = [])
    (h2 : (loadFromIndexedDB env s).1 = Except.ok S) (hS : S ≠ []) :
    (loadContext env s).1 = Completion.resolved ∧
    (loadContext env s).2.mgr.contextData = S ∧
    (loadContext env s).2.store = s.store ∧
    ∃ pre ui logs : List Effect,
      (∀ e ∈ pre, e.isRemoteSave = false ∧ e.isRestoreCall = false) ∧
      (∀ e ∈ ui, e.isPageOnly = true) ∧ (∀ e ∈ logs, e.isPageOnly = true) ∧
      (loadContext env s).2.trace = s.trace ++ (pre ++
        Effect.restoreCall S :: ui ++ Effect.fetchSave (env.stringify S) :: logs) := by
  have h2b : (loadFromIndexedDB env (loadFromAPI env s).2).1 = Except.ok S := by
    rw [loadFromIndexedDB_after_api]; exact h2
  rw [loadContext_local env s S h1 h2b hS]
  obtain ⟨am, ast, alogs, halogs, atr⟩ := loadFromAPI_spec env s
  obtain ⟨lm, ls, es, hes, lt⟩ := loadFromIndexedDB_spec env (loadFromAPI env s).2
  obtain ⟨ui, hui, rm, rs, rt⟩ := restoreMessagesToUI_spec env
    ((loadFromIndexedDB env (loadFromAPI env s).2).2.setContext S)
  obtain ⟨sm, ss, logs, hlogs, st⟩ := saveToAPI_spec env (restoreMessagesToUI env
    ((loadFromIndexedDB env (loadFromAPI env s).2).2.setContext S))
  refine ⟨rfl, ?_, ?_, Effect.fetchLoad :: alogs ++ es, ui, logs, ?_, hui, hlogs, ?_⟩
  · simp only [sm, rm, setContext_contextData]
  · simp only [ss, rs, setContext_store, ls, ast]
  · intro e he
    simp only [List.cons_append, List.mem_cons, List.mem_append] at he
    rcases he with rfl | he | he
    · exact ⟨rfl, rfl⟩
    · exact ⟨isPageOnly_not_remoteSave e (halogs e he),
        isPageOnly_not_restoreCall e (halogs e he)⟩
    · exact hes e he
  · simp only [st, rt, rm, setContext_trace, setContext_contextData, lt, atr,
      List.append_assoc, List.cons_append]

/-- Trace and state of the paths on which the local load finds nothing or rejects:
no field of the engine changes and nothing but load traffic is issued. -/
theorem loadContext_idle_trace (env : Env) (s : Sys) (h1 : (loadFromAPI env s).1 = [])
    (h2 : (loadFromIndexedDB env s).1 = Except.ok [] ∨
      ∃ err, (loadFromIndexedDB env s).1 = Except.error err) :
    (loadContext env s).2.mgr = s.mgr ∧
    (loadContext env s).2.store = s.store ∧
    ∃ pre : List Effect, (∀ e ∈ pre, e.isRemoteSave = false ∧ e.isRestoreCall = false) ∧
      (loadContext env s).2.trace = s.trace ++ pre := by
  have hsnd : (loadContext env s).2 = (loadFromIndexedDB env (loadFromAPI env s).2).2 := by
    rcases h2 with h2 | ⟨err, h2⟩
    · rw [loadContext_none env s h1 (by rw [loadFromIndexedDB_after_api]; exact h2)]
    · rw [loadContext_rejected env s err h1 (by rw [loadFromIndexedDB_after_api]; exact h2)]
  rw [hsnd]
  obtain ⟨am, ast, alogs, halogs, atr⟩ := loadFromAPI_spec env s
  obtain ⟨lm, ls, es, hes, lt⟩ := loadFromIndexedDB_spec env (loadFromAPI env s).2
  refine ⟨by rw [lm, am], by rw [ls, ast], Effect.fetchLoad :: alogs ++ es, ?_, ?_⟩
  · intro e he
    simp only [List.cons_append, List.mem_cons, List.mem_append] at he
    rcases he with rfl | he | he
    · exact ⟨rfl, rfl⟩
    · exact ⟨isPageOnly_not_remoteSave e (halogs e he),
        isPageOnly_not_restoreCall e (halogs e he)⟩
    · exact hes e he
  · simp only [lt, atr, List.append_assoc, List.cons_append]

/-- The local load ends in one of three ways: it rejects, it resolves `[]`, or it
resolves a non-empty list. -/
theorem loadFromIndexedDB_cases (env : Env) (s : Sys) :
    (∃ err, (loadFromIndexedDB env s).1 = Except.error err) ∨
    (loadFromIndexedDB env s).1 = Except.ok [] ∨
    ∃ S, S ≠ [] ∧ (loadFromIndexedDB env s).1 = Except.ok S := by
  cases h : (loadFromIndexedDB env s).1 with
  | error err => exact Or.inl ⟨err, rfl⟩
  | ok S =>
    by_cases hS : S = []
    · subst hS; exact Or.inr (Or.inl rfl)
    · exact Or.inr (Or.inr ⟨S, hS, rfl⟩)

/-! ## Claims -/

/-- C1 (retention invariant): for every limit `L ≥ 1` and every sequence of
`addMessage` calls applied to an empty working set, after each call (after the
first `k` calls, for every `k`) the working set has length `min k L ≤ L` and is
exactly the last `min k L` appended messages, in insertion order. -/
theorem addMessage_retention (L : Nat) (hL : 1 ≤ L) (m : ContextMemoryManager)
    (hm : m.contextData = []) (hmax : m.maxLocalMessages = L) (calls : List AddCall)
    (k : Nat) (hk : k ≤ calls.length) :
    (addAll m (calls.take k)).contextData.length = min k L ∧
    (addAll m (calls.take k)).contextData.length ≤ L ∧
    (addAll m (calls.take k)).contextData =
      ((calls.take k).map AddCall.message).drop (k - min k L) := by
  have hlen : (calls.take k).length = k := by simp [hk]
  have h := addAll_contextData L hL m hm hmax (calls.take k)
  rw [hlen] at h
  refine ⟨?_, ?_, h⟩
  · rw [h]; simp [hlen]; omega
  · rw [h]; simp [hlen]; omega

/-- Witness for C1: limit 2 and the three calls "a", "b", "c" (the spec's scenario). -/
theorem addMessage_retention_witness :
    (addAll { ContextMemoryManager.new with maxLocalMessages := 2 }
        ([AddCall.mk "user" "a" none "t1", AddCall.mk "bot" "b" none "t2",
          AddCall.mk "user" "c" none "t3"].take 3)).contextData.length = min 3 2 ∧
    (addAll { ContextMemoryManager.new with maxLocalMessages := 2 }
        ([AddCall.mk "user" "a" none "t1", AddCall.mk "bot" "b" none "t2",
          AddCall.mk "user" "c" none "t3"].take 3)).contextData.length ≤ 2 ∧
    (addAll { ContextMemoryManager.new with maxLocalMessages := 2 }
        ([AddCall.mk "user" "a" none "t1", AddCall.mk "bot" "b" none "t2",
          AddCall.mk "user" "c" none "t3"].take 3)).contextData =
      (([AddCall.mk "user" "a" none "t1", AddCall.mk "bot" "b" none "t2",
          AddCall.mk "user" "c" none "t3"].take 3).map AddCall.message).drop (3 - min 3 2) :=
  addMessage_retention 2 (by decide) { ContextMemoryManager.new with maxLocalMessages := 2 }
    rfl rfl _ 3 (by decide)

/-- C2 (precedence law): when the remote load answers with a non-empty record `R`
and the local store holds a different non-empty record for the session,
`loadContext` resolves with the working set equal to `R` (so not the local record,
and no merge); it issues no request to the local store, leaves the store as it
was, and issues no remote save. -/
theorem loadContext_remote_precedence (env : Env) (s : Sys) (R : List Message)
    (r : ConversationRecord)
    (hreply : env.loadReply = LoadReply.body "success" true (some (some R)))
    (hR : R ≠ [])
    (hlocal : storeGet s.store s.mgr.sessionId = some r)
    (_hS : r.messages ≠ []) (hdiff : r.messages ≠ R) :
    (loadContext env s).1 = Completion.resolved ∧
    (loadContext env s).2.mgr.contextData = R ∧
    (loadContext env s).2.mgr.contextData ≠ r.messages ∧
    (loadContext env s).2.store = s.store ∧
    storeGet (loadContext env s).2.store s.mgr.sessionId = some r ∧
    (issued s (loadContext env s).2).filter Effect.isLocalRequest = [] ∧
    (issued s (loadContext env s).2).filter Effect.isRemoteSave = [] := by
  have hapi : (loadFromAPI env s).1 = R := by
    simp [loadFromAPI, hreply]
  have hne : (loadFromAPI env s).1 ≠ [] := by rw [hapi]; exact hR
  obtain ⟨hcd, hst, logs, ui, hlogs, hui, htr⟩ := loadContext_remote_trace env s hne
  have hiss := issued_of_trace s _ _ htr
  refine ⟨by rw [loadContext_remote env s hne], ?_, ?_, hst, ?_, ?_, ?_⟩
  · rw [hcd, hapi]
  · rw [hcd, hapi]; exact fun h => hdiff h.symm
  · rw [hst]; exact hlocal
  · rw [hiss]
    apply filter_eq_nil_of_forall_false
    intro e he
    simp only [List.cons_append, List.mem_cons, List.mem_append] at he
    rcases he with rfl | he | rfl | he
    · rfl
    · exact isPageOnly_not_localRequest e (hlogs e he)
    · rfl
    · exact isPageOnly_not_localRequest e (hui e he)
  · rw [hiss]
    apply filter_eq_nil_of_forall_false
    intro e he
    simp only [List.cons_append, List.mem_cons, List.mem_append] at he
    rcases he with rfl | he | rfl | he
    · rfl
    · exact isPageOnly_not_remoteSave e (hlogs e he)
    · rfl
    · exact isPageOnly_not_remoteSave e (hui e he)

/-- Witness for C2: the server answers `[msgHello]`, the local store holds `[msgHi]`. -/
theorem loadContext_remote_precedence_witness :
    (loadContext { okEnv with loadReply := LoadReply.body "success" true (some (some [msgHello])) }
      localOnlySys).2.mgr.contextData = [msgHello] :=
  (loadContext_remote_precedence
    { okEnv with loadReply := LoadReply.body "success" true (some (some [msgHello])) }
    localOnlySys [msgHello]
    { session_id := some "srv-1", messages := [msgHi], timestamp := "t1" }
    rfl (by decide) (by decide) (by decide) (by decide)).2.1

/-- C3, as amended (promotion law): when the remote load yields no messages and
the local load returns a non-empty record (the engine holds an open store handle
and a session id, and the `get` for that session succeeds and finds the record),
`loadContext` resolves with that record's messages as the working set, calls the
restoration step exactly once, with those messages, and issues exactly one remote
save whose body is the serialisation of those messages; and whenever `loadContext`
issues a remote save at all, it is in that situation. -/
theorem loadContext_promotion (env : Env) (s : Sys) :
    (∀ (h : IDBDatabase) (sid : String) (r : ConversationRecord),
      (loadFromAPI env s).1 = [] → s.mgr.db = some h → s.mgr.sessionId = some sid →
      env.getOutcome = IDBOutcome.onsuccess →
      storeGet s.store (some sid) = some r → r.messages ≠ [] →
        (loadContext env s).1 = Completion.resolved ∧
        (loadContext env s).2.mgr.contextData = r.messages ∧
        (issued s (loadContext env s).2).filter Effect.isRestoreCall =
          [Effect.restoreCall r.messages] ∧
        (issued s (loadContext env s).2).filter Effect.isRemoteSave =
          [Effect.fetchSave (env.stringify r.messages)]) ∧
    ((issued s (loadContext env s).2).filter Effect.isRemoteSave ≠ [] →
      (loadFromAPI env s).1 = [] ∧
      ∃ (h : IDBDatabase) (sid : String) (r : ConversationRecord), s.mgr.db = some h ∧
        s.mgr.sessionId = some sid ∧ env.getOutcome = IDBOutcome.onsuccess ∧
        storeGet s.store (some sid) = some r ∧ r.messages ≠ []) := by
  constructor
  · intro h sid r hapi hdb hsid hget hrec hne
    have hloc : (loadFromIndexedDB env s).1 = Except.ok r.messages :=
      loadFromIndexedDB_hit env s h sid r hdb hsid hget hrec
    obtain ⟨hres, hcd, _, pre, ui, logs, hpre, hui, hlogs, htr⟩ :=
      loadContext_local_trace env s r.messages hapi hloc hne
    have hiss := issued_of_trace s _ _ htr
    refine ⟨hres, hcd, ?_, ?_⟩
    · rw [hiss]
      simp only [List.filter_append, List.filter_cons, Effect.isRestoreCall, Effect.isRemoteSave]
      rw [filter_eq_nil_of_forall_false _ pre (fun e he => (hpre e he).2),
        filter_eq_nil_of_forall_false _ ui
          (fun e he => isPageOnly_not_restoreCall e (hui e he)),
        filter_eq_nil_of_forall_false _ logs
          (fun e he => isPageOnly_not_restoreCall e (hlogs e he))]
      simp
    · rw [hiss]
      simp only [List.filter_append, List.filter_cons, Effect.isRestoreCall, Effect.isRemoteSave]
      rw [filter_eq_nil_of_forall_false _ pre (fun e he => (hpre e he).1),
        filter_eq_nil_of_forall_false _ ui
          (fun e he => isPageOnly_not_remoteSave e (hui e he)),
        filter_eq_nil_of_forall_false _ logs
          (fun e he => isPageOnly_not_remoteSave e (hlogs e he))]
      simp
  · intro hsave
    by_cases hapi : (loadFromAPI env s).1 = []
    · rcases loadFromIndexedDB_cases env s with herr | hnil | ⟨S, hS, hok⟩
      · exfalso
        obtain ⟨_, _, pre, hpre, htr⟩ := loadContext_idle_trace env s hapi (Or.inr herr)
        rw [issued_of_trace s _ _ htr] at hsave
        exact hsave (filter_eq_nil_of_forall_false _ pre (fun e he => (hpre e he).1))
      · exfalso
        obtain ⟨_, _, pre, hpre, htr⟩ := loadContext_idle_trace env s hapi (Or.inl hnil)
        rw [issued_of_trace s _ _ htr] at hsave
        exact hsave (filter_eq_nil_of_forall_false _ pre (fun e he => (hpre e he).1))
      · obtain ⟨h, sid, r, hdb, hsid, hget, hrec, hmsg⟩ :=
          loadFromIndexedDB_ne_nil env s S hok hS
        exact ⟨hapi, h, sid, r, hdb, hsid, hget, hrec, by rw [hmsg]; exact hS⟩
    · exfalso
      obtain ⟨_, _, logs, ui, hlogs, hui, htr⟩ := loadContext_remote_trace env s hapi
      rw [issued_of_trace s _ _ htr] at hsave
      apply hsave
      apply filter_eq_nil_of_forall_false
      intro e he
      simp only [List.cons_append, List.mem_cons, List.mem_append] at he
      rcases he with rfl | he | rfl | he
      · rfl
      · exact isPageOnly_not_remoteSave e (hlogs e he)
      · rfl
      · exact isPageOnly_not_remoteSave e (hui e he)

/-- Witness for C3 as amended (the spec's scenario): the local store holds
`[msgHi]`, the server reports no context. -/
theorem loadContext_promotion_witness :
    (loadContext okEnv localOnlySys).1 = Completion.resolved ∧
    (loadContext okEnv localOnlySys).2.mgr.contextData = [msgHi] ∧
    (issued localOnlySys (loadContext okEnv localOnlySys).2).filter Effect.isRestoreCall =
      [Effect.restoreCall [msgHi]] ∧
    (issued localOnlySys (loadContext okEnv localOnlySys).2).filter Effect.isRemoteSave =
      [Effect.fetchSave (okEnv.stringify [msgHi])] :=
  (loadContext_promotion okEnv localOnlySys).1
    { name := "EduBotContextDB", version := 1 } "srv-1"
    { session_id := some "srv-1", messages := [msgHi], timestamp := "t1" }
    rfl rfl rfl rfl (by decide) (by decide)

/-- Counterexample to C3 as stated: the remote load is empty and the local store
holds the non-empty record `[msgHi]` for the session, but the `get` request fires
`onerror`, or the engine holds no store handle; in both cases `loadContext`
resolves with the working set still empty, no restoration call and no remote
save. -/
theorem loadContext_no_promotion_when_local_unreadable :
    storeGet localOnlySys.store localOnlySys.mgr.sessionId =
      some (ConversationRecord.mk (some "srv-1") [msgHi] "t1") ∧
    (loadFromAPI getFailsEnv localOnlySys).1 = [] ∧
    (loadContext getFailsEnv localOnlySys).1 = Completion.resolved ∧
    (loadContext getFailsEnv localOnlySys).2.mgr.contextData = [] ∧
    (issued localOnlySys (loadContext getFailsEnv localOnlySys).2).filter
      Effect.isRestoreCall = [] ∧
    (issued localOnlySys (loadContext getFailsEnv localOnlySys).2).filter
      Effect.isRemoteSave = [] ∧
    storeGet noHandleSys.store noHandleSys.mgr.sessionId =
      some (ConversationRecord.mk (some "srv-1") [msgHi] "t1") ∧
    (loadContext okEnv noHandleSys).1 = Completion.resolved ∧
    (loadContext okEnv noHandleSys).2.mgr.contextData = [] ∧
    (issued noHandleSys (loadContext okEnv noHandleSys).2).filter Effect.isRemoteSave = [] := by
  decide

/-- C4, as amended (empty tiers): when the remote load yields no messages and the
local load resolves with none, `loadContext` resolves and changes no field of the
engine, so the working set is what it was before the call; the restoration step
is not called and no remote save is issued; and when the working set was empty
before the call (as at start-up) `hasContext()` is false and `getMessageCount()`
is 0 afterwards. -/
theorem loadContext_empty_tiers (env : Env) (s : Sys)
    (hremote : (loadFromAPI env s).1 = [])
    (hlocal : (loadFromIndexedDB env s).1 = Except.ok []) :
    (loadContext env s).1 = Completion.resolved ∧
    (loadContext env s).2.mgr = s.mgr ∧
    (issued s (loadContext env s).2).filter Effect.isRestoreCall = [] ∧
    (issued s (loadContext env s).2).filter Effect.isRemoteSave = [] ∧
    (s.mgr.contextData = [] →
      (loadContext env s).2.mgr.contextData = [] ∧
      (loadContext env s).2.mgr.hasContext = false ∧
      (loadContext env s).2.mgr.getMessageCount = 0) := by
  obtain ⟨hm, _, pre, hpre, htr⟩ := loadContext_idle_trace env s hremote (Or.inl hlocal)
  have hiss := issued_of_trace s _ _ htr
  have hres : (loadContext env s).1 = Completion.resolved := by
    rw [loadContext_none env s hremote (by rw [loadFromIndexedDB_after_api]; exact hlocal)]
  refine ⟨hres, hm, ?_, ?_, ?_⟩
  · rw [hiss]
    exact filter_eq_nil_of_forall_false _ pre (fun e he => (hpre e he).2)
  · rw [hiss]
    exact filter_eq_nil_of_forall_false _ pre (fun e he => (hpre e he).1)
  · intro hstart
    refine ⟨by rw [hm, hstart], ?_, ?_⟩
    · simp [ContextMemoryManager.hasContext, hm, hstart]
    · simp [ContextMemoryManager.getMessageCount, hm, hstart]

/-- Witness for C4 as amended: an open store with no record, a server with no
context, an empty working set. -/
theorem loadContext_empty_tiers_witness :
    (loadContext okEnv { mgr := readyMgr, store := [], trace := [] }).2.mgr.hasContext = false :=
  ((loadContext_empty_tiers okEnv { mgr := readyMgr, store := [], trace := [] }
    rfl rfl).2.2.2.2 rfl).2.1

/-- Counterexample to C4 as stated: both tiers are empty, but `loadContext` is
called on an engine that already holds `[msgHi, msgHello]`; it leaves that working
set in place, so `hasContext()` is true and `getMessageCount()` is 2. -/
theorem loadContext_empty_tiers_keeps_working_set :
    (loadFromAPI okEnv chatSys).1 = [] ∧
    (loadContext okEnv chatSys).1 = Completion.resolved ∧
    (loadContext okEnv chatSys).2.mgr.contextData = [msgHi, msgHello] ∧
    (loadContext okEnv chatSys).2.mgr.hasContext = true ∧
    (loadContext okEnv chatSys).2.mgr.getMessageCount = 2 := by
  decide

/-- The local delete leaves the engine's fields alone. -/
theorem clearFromIndexedDB_mgr (env : Env) (s : Sys) :
    (clearFromIndexedDB env s).2.mgr = s.mgr := by
  unfold clearFromIndexedDB
  split
  · rfl
  · split
    · rfl
    · simp only []
      split <;> rfl

/-- The remote clear leaves the engine's fields alone. -/
theorem clearFromAPI_mgr (env : Env) (s : Sys) : (clearFromAPI env s).mgr = s.mgr := by
  unfold clearFromAPI
  simp only []
  split
  · rfl
  · rfl
  · split <;> rfl

/-- After `clearContext` the working set is empty, whether it resolved or rejected. -/
theorem clearContext_contextData (env : Env) (s : Sys) :
    (clearContext env s).2.mgr.contextData = [] := by
  have h := clearFromIndexedDB_mgr env (s.setContext [])
  unfold clearContext
  simp only []
  split
  · rename_i err s1 heq
    rw [heq] at h
    simp only [] at h
    rw [h]; rfl
  · rename_i s1 heq
    rw [heq] at h
    simp only [] at h
    rw [clearFromAPI_mgr, h]; rfl

/-- C5 (clear finality): for every working set and every outcome of the local
delete and of the remote clear, once `clearContext` has finished (resolved or
rejected) `getMessageCount()` is 0 and `hasContext()` is false. -/
theorem clearContext_finality (env : Env) (s : Sys) :
    (clearContext env s).2.mgr.getMessageCount = 0 ∧
    (clearContext env s).2.mgr.hasContext = false := by
  have h := clearContext_contextData env s
  simp [ContextMemoryManager.getMessageCount, ContextMemoryManager.hasContext, h]

/-! ### Saving -/

/-- With a store handle, a session id and a successful `put`, `saveToIndexedDB`
resolves after exactly one `put` of the whole record. -/
theorem saveToIndexedDB_ok (env : Env) (s : Sys) (h : IDBDatabase) (sid : String)
    (hdb : s.mgr.db = some h) (hsid : s.mgr.sessionId = some sid)
    (hput : env.putOutcome = IDBOutcome.onsuccess) :
    saveToIndexedDB env s = (Completion.resolved,
      { s with
        store := storePut s.store (saveRecord s.mgr env.nowISO)
        trace := s.trace ++ [Effect.idbPut (saveRecord s.mgr env.nowISO)] }) := by
  unfold saveToIndexedDB
  rw [hdb, hsid]
  simp only [hput]
  rfl

/-- With a store handle, a session id and a successful `put`, `saveContext`
resolves, leaves the engine's fields alone and issues one `put` and then one
`POST`. -/
theorem saveContext_ok (env : Env) (s : Sys) (h : IDBDatabase) (sid : String)
    (hdb : s.mgr.db = some h) (hsid : s.mgr.sessionId = some sid)
    (hput : env.putOutcome = IDBOutcome.onsuccess) :
    (saveContext env s).1 = Completion.resolved ∧ (saveContext env s).2.mgr = s.mgr ∧
    ∃ logs : List Effect, (∀ e ∈ logs, e.isPageOnly = true) ∧
      (saveContext env s).2.trace = s.trace ++
        (Effect.idbPut (saveRecord s.mgr env.nowISO) ::
          Effect.fetchSave (env.stringify s.mgr.contextData) :: logs) := by
  unfold saveContext
  rw [saveToIndexedDB_ok env s h sid hdb hsid hput]
  simp only []
  obtain ⟨sm, _, logs, hlogs, st⟩ := saveToAPI_spec env
    { s with
      store := storePut s.store (saveRecord s.mgr env.nowISO)
      trace := s.trace ++ [Effect.idbPut (saveRecord s.mgr env.nowISO)] }
  refine ⟨trivial, sm, logs, hlogs, ?_⟩
  rw [st]
  simp

/-- C6, as amended: with an open store handle, both `put` requests succeeding
(which takes a session id: a record without one has no key to be put under) and
the same `JSON.stringify`, two successive `saveContext` calls leave the working
set unchanged and each issue exactly one remote save and exactly one local `put`;
the two request bodies are the same string, and the two local records carry the
same session id and the same messages but each its own save time
(`new Date().toISOString()` of that call). -/
theorem saveContext_twice_payloads (env1 env2 : Env) (s : Sys) (h : IDBDatabase)
    (sid : String)
    (hdb : s.mgr.db = some h) (hsid : s.mgr.sessionId = some sid)
    (hput1 : env1.putOutcome = IDBOutcome.onsuccess)
    (hput2 : env2.putOutcome = IDBOutcome.onsuccess)
    (hstr : env1.stringify = env2.stringify) :
    (saveContext env2 (saveContext env1 s).2).2.mgr = s.mgr ∧
    (issued s (saveContext env1 s).2).filter Effect.isRemoteSave =
      [Effect.fetchSave (env1.stringify s.mgr.contextData)] ∧
    (issued (saveContext env1 s).2 (saveContext env2 (saveContext env1 s).2).2).filter
        Effect.isRemoteSave =
      [Effect.fetchSave (env1.stringify s.mgr.contextData)] ∧
    (issued s (saveContext env1 s).2).filter Effect.isLocalRequest =
      [Effect.idbPut (saveRecord s.mgr env1.nowISO)] ∧
    (issued (saveContext env1 s).2 (saveContext env2 (saveContext env1 s).2).2).filter
        Effect.isLocalRequest =
      [Effect.idbPut (saveRecord s.mgr env2.nowISO)] := by
  obtain ⟨_, hm1, logs1, hlogs1, ht1⟩ := saveContext_ok env1 s h sid hdb hsid hput1
  have hdb1 : (saveContext env1 s).2.mgr.db = some h := by rw [hm1]; exact hdb
  have hsid1 : (saveContext env1 s).2.mgr.sessionId = some sid := by rw [hm1]; exact hsid
  obtain ⟨_, hm2, logs2, hlogs2, ht2⟩ :=
    saveContext_ok env2 (saveContext env1 s).2 h sid hdb1 hsid1 hput2
  rw [hm1] at ht2
  have hi1 := issued_of_trace s _ _ ht1
  have hi2 := issued_of_trace _ _ _ ht2
  have r1 := filter_eq_nil_of_forall_false Effect.isRemoteSave logs1
    (fun e he => isPageOnly_not_remoteSave e (hlogs1 e he))
  have r2 := filter_eq_nil_of_forall_false Effect.isRemoteSave logs2
    (fun e he => isPageOnly_not_remoteSave e (hlogs2 e he))
  have l1 := filter_eq_nil_of_forall_false Effect.isLocalRequest logs1
    (fun e he => isPageOnly_not_localRequest e (hlogs1 e he))
  have l2 := filter_eq_nil_of_forall_false Effect.isLocalRequest logs2
    (fun e he => isPageOnly_not_localRequest e (hlogs2 e he))
  refine ⟨by rw [hm2, hm1], ?_, ?_, ?_, ?_⟩
  · rw [hi1]; simp [List.filter_cons, Effect.isRemoteSave, r1]
  · rw [hi2, hstr]; simp [List.filter_cons, Effect.isRemoteSave, r2]
  · rw [hi1]; simp [List.filter_cons, Effect.isLocalRequest, l1]
  · rw [hi2]; simp [List.filter_cons, Effect.isLocalRequest, l2]

/-- Witness for C6 as amended: `chatSys` saved at `okEnv` and again at `laterEnv`. -/
theorem saveContext_twice_payloads_witness :
    (issued chatSys (saveContext okEnv chatSys).2).filter Effect.isRemoteSave =
      [Effect.fetchSave (okEnv.stringify chatSys.mgr.contextData)] ∧
    (issued (saveContext okEnv chatSys).2
        (saveContext laterEnv (saveContext okEnv chatSys).2).2).filter Effect.isRemoteSave =
      [Effect.fetchSave (okEnv.stringify chatSys.mgr.contextData)] :=
  ⟨(saveContext_twice_payloads okEnv laterEnv chatSys
      { name := "EduBotContextDB", version := 1 } "srv-1" rfl rfl rfl rfl rfl).2.1,
   (saveContext_twice_payloads okEnv laterEnv chatSys
      { name := "EduBotContextDB", version := 1 } "srv-1" rfl rfl rfl rfl rfl).2.2.1⟩

/-- Counterexample to C6 as stated: `chatSys` is saved twice with the working set
unchanged, at two different clock values; the record put by the second call is not
the record put by the first. -/
theorem saveContext_twice_local_records_differ :
    (saveContext okEnv chatSys).2.mgr = chatSys.mgr ∧
    (issued chatSys (saveContext okEnv chatSys).2).filter Effect.isLocalRequest =
      [Effect.idbPut (ConversationRecord.mk (some "srv-1") [msgHi, msgHello]
        "2024-01-01T00:00:00.000Z")] ∧
    (issued (saveContext okEnv chatSys).2
        (saveContext laterEnv (saveContext okEnv chatSys).2).2).filter Effect.isLocalRequest =
      [Effect.idbPut (ConversationRecord.mk (some "srv-1") [msgHi, msgHello]
        "2024-01-01T00:00:30.000Z")] ∧
    (issued chatSys (saveContext okEnv chatSys).2).filter Effect.isLocalRequest ≠
      (issued (saveContext okEnv chatSys).2
        (saveContext laterEnv (saveContext okEnv chatSys).2).2).filter Effect.isLocalRequest := by
  decide

/-- C7 at the failing input: `chatSys` has an open store handle and the `put`
request fires `onerror`; `saveContext` rejects with that error right after the
`put`, and no remote save is issued. -/
theorem saveContext_put_error_blocks_remote :
    (saveContext putFailsEnv chatSys).1 = Completion.rejected "QuotaExceededError" ∧
    issued chatSys (saveContext putFailsEnv chatSys).2 =
      [Effect.idbPut (ConversationRecord.mk (some "srv-1") [msgHi, msgHello]
          "2024-01-01T00:00:00.000Z"),
        Effect.consoleError "[Context] Error saving to IndexedDB:"] ∧
    (issued chatSys (saveContext putFailsEnv chatSys).2).filter Effect.isRemoteSave = [] := by
  decide

/-- C8 at the failing inputs: with an open store handle, `saveContext` rejects
when the `put` request fires `onerror`, and `clearContext` rejects when the
`delete` request fires `onerror` (and then never issues the remote clear). -/
theorem saveContext_clearContext_reject :
    (saveContext putFailsEnv chatSys).1 = Completion.rejected "QuotaExceededError" ∧
    (clearContext deleteFailsEnv chatSys).1 =
      Completion.rejected "TransactionInactiveError" ∧
    issued chatSys (clearContext deleteFailsEnv chatSys).2 =
      [Effect.idbDelete (some "srv-1"),
        Effect.consoleError "[Context] Error clearing IndexedDB:"] := by
  decide

/-- C9 at the failing input: `indexedDB.open` fires `onerror` while the server
holds `[msgHello]`; `init` rejects after the open request, the remote record is
never asked for, the working set stays empty, and neither the autosave timer nor
the `beforeunload` listener is registered. -/
theorem init_open_error_aborts :
    (init openFailsEnv (initialSys [])).1 = Completion.rejected "SecurityError" ∧
    (init openFailsEnv (initialSys [])).2.mgr.contextData = [] ∧
    (init openFailsEnv (initialSys [])).2.trace =
      [Effect.fetchSessionId, Effect.idbOpen "EduBotContextDB" 1,
        Effect.consoleError "[Context] IndexedDB error:"] ∧
    (init { openFailsEnv with openOutcome := IDBOutcome.onsuccess }
      (initialSys [])).2.mgr.contextData = [msgHello] := by
  decide

/-! ### What saving changes -/

/-- The local save leaves the engine's fields alone; the store is untouched or
gets the record of the current working set. -/
theorem saveToIndexedDB_effect (env : Env) (s : Sys) :
    (saveToIndexedDB env s).2.mgr = s.mgr ∧
    ((saveToIndexedDB env s).2.store = s.store ∨
      (saveToIndexedDB env s).2.store = storePut s.store (saveRecord s.mgr env.nowISO)) := by
  unfold saveToIndexedDB
  split
  · exact ⟨rfl, Or.inl rfl⟩
  · split
    · exact ⟨rfl, Or.inl rfl⟩
    · simp only []
      split
      · exact ⟨rfl, Or.inr rfl⟩
      · exact ⟨rfl, Or.inl rfl⟩

/-- Method `saveContext` leaves the engine's fields alone; the store is untouched
or gets the record of the current working set. -/
theorem saveContext_effect (env : Env) (s : Sys) :
    (saveContext env s).2.mgr = s.mgr ∧
    ((saveContext env s).2.store = s.store ∨
      (saveContext env s).2.store = storePut s.store (saveRecord s.mgr env.nowISO)) := by
  have h := saveToIndexedDB_effect env s
  unfold saveContext
  split
  · rename_i err s1 heq
    rw [heq] at h
    exact h
  · rename_i s1 heq
    rw [heq] at h
    simp only [] at h ⊢
    rw [(saveToAPI_spec env s1).1, (saveToAPI_spec env s1).2.1]
    exact h

/-! ### The working-set bound -/

/-- C10 at the failing input: from the constructed engine (limit 50), one
`loadContext` whose remote answer carries 51 messages leaves a working set of 51
messages, above the limit; one `addMessage` afterwards brings it back to 50. -/
theorem loadContext_exceeds_limit :
    (initialSys []).mgr.maxLocalMessages = 50 ∧
    (run (initialSys []) [Action.loadContext bigRemoteEnv]).mgr.contextData.length = 51 ∧
    ¬ (run (initialSys []) [Action.loadContext bigRemoteEnv]).mgr.contextData.length ≤ 50 ∧
    (run (initialSys []) [Action.loadContext bigRemoteEnv,
      Action.addMessage "user" "q" none "t"]).mgr.contextData.length = 50 := by
  decide

/-! ### Reading the working set -/

/-- A positive `limit` makes `getRecentMessages` drop all but the last `limit`
entries. -/
theorem getRecentMessages_of_pos (m : ContextMemoryManager) (limit : Int) (h : 1 ≤ limit) :
    m.getRecentMessages limit =
      m.contextData.drop (m.contextData.length - min limit.toNat m.contextData.length) := by
  unfold ContextMemoryManager.getRecentMessages jsSlice
  have hneg : -limit < 0 := by omega
  rw [if_pos hneg]
  congr 1
  omega

/-- C11 (tail of the working set): for every working set of `n` messages and every
integer `limit ≥ 1`, `getRecentMessages(limit)` is the last `min(limit, n)`
messages in insertion order and has that length; and with limit `L = 2`, after
`addMessage` with texts "a", "b", "c" on an empty working set,
`getRecentMessages(10)` has texts exactly `["b", "c"]`. -/
theorem getRecentMessages_tail :
    (∀ (m : ContextMemoryManager) (limit : Int), 1 ≤ limit →
      m.getRecentMessages limit =
        m.contextData.drop (m.contextData.length - min limit.toNat m.contextData.length) ∧
      (m.getRecentMessages limit).length = min limit.toNat m.contextData.length) ∧
    ((addAll { ContextMemoryManager.new with maxLocalMessages := 2 }
        [AddCall.mk "user" "a" none "t1", AddCall.mk "bot" "b" none "t2",
          AddCall.mk "user" "c" none "t3"]).getRecentMessages 10).map Message.text =
      ["b", "c"] := by
  refine ⟨?_, by decide⟩
  intro m limit h
  rw [getRecentMessages_of_pos m limit h]
  refine ⟨rfl, ?_⟩
  simp only [List.length_drop]
  omega

/-- Witness for C11: the working set `[msgHi, msgHello]` asked for its last message. -/
theorem getRecentMessages_tail_witness :
    chatSys.mgr.getRecentMessages 1 = [msgHello] ∧
    (chatSys.mgr.getRecentMessages 1).length = 1 := by
  have h := getRecentMessages_tail.1 chatSys.mgr 1 (by decide)
  exact ⟨h.1.trans (by decide), h.2.trans (by decide)⟩

/-! ### The autosave tick -/

/-- A `saveContext` call issues at least one write to a durable tier when the
local tier is skipped (no handle) or the record has a key (a session id): the
remote save in the first case, the local `put` in the second. -/
theorem saveContext_issues_write (env : Env) (s : Sys)
    (hkey : s.mgr.db = none ∨ s.mgr.sessionId ≠ none) :
    (issued s (saveContext env s).2).filter Effect.isDurableWrite ≠ [] := by
  cases hdb : s.mgr.db with
  | none =>
    have hsave : saveContext env s = (Completion.resolved, saveToAPI env s) := by
      unfold saveContext saveToIndexedDB
      rw [hdb]
    obtain ⟨_, _, logs, _, ht⟩ := saveToAPI_spec env s
    rw [hsave, issued_of_trace s _ _ ht]
    simp [List.filter_cons, Effect.isDurableWrite]
  | some h =>
    cases hsid : s.mgr.sessionId with
    | none =>
      rcases hkey with hk | hk
      · rw [hdb] at hk; exact absurd hk (by simp)
      · exact absurd hsid hk
    | some sid =>
      cases hput : env.putOutcome with
      | onsuccess =>
        obtain ⟨_, _, logs, _, ht⟩ := saveContext_ok env s h sid hdb hsid hput
        rw [issued_of_trace s _ _ ht]
        simp [List.filter_cons, Effect.isDurableWrite]
      | onerror err =>
        have ht : (saveContext env s).2.trace = s.trace ++
            [Effect.idbPut (saveRecord s.mgr env.nowISO),
              Effect.consoleError "[Context] Error saving to IndexedDB:"] := by
          unfold saveContext saveToIndexedDB
          rw [hdb, hsid]
          simp [hput]
        rw [issued_of_trace s _ _ ht]
        simp [List.filter_cons, Effect.isDurableWrite]

theorem issued_self (s : Sys) : issued s s = [] := by
  simp [issued]

/-- C12 (autosave tick): a tick runs `saveContext` when the working set is
non-empty and does nothing at all when it is empty, so a tick that writes to a
durable tier has a non-empty working set, and a tick on a non-empty working set
issues a write whenever `saveContext` can issue one (no store handle, or a session
id to key the record). The test reads the working set only: `saveContext` leaves
it unchanged, so a tick that follows a tick with no append in between runs
`saveContext` again. -/
theorem autoSaveTick_saves_iff_nonempty (env env2 : Env) (s : Sys) :
    (s.mgr.contextData ≠ [] → autoSaveTick env s = (saveContext env s).2) ∧
    (s.mgr.contextData = [] → autoSaveTick env s = s ∧ issued s (autoSaveTick env s) = []) ∧
    ((issued s (autoSaveTick env s)).filter Effect.isDurableWrite ≠ [] →
      s.mgr.contextData ≠ []) ∧
    (s.mgr.contextData ≠ [] → (s.mgr.db = none ∨ s.mgr.sessionId ≠ none) →
      (issued s (autoSaveTick env s)).filter Effect.isDurableWrite ≠ []) ∧
    (s.mgr.contextData ≠ [] →
      (autoSaveTick env s).mgr.contextData = s.mgr.contextData ∧
      autoSaveTick env2 (autoSaveTick env s) = (saveContext env2 (autoSaveTick env s)).2 ∧
      ((s.mgr.db = none ∨ s.mgr.sessionId ≠ none) →
        (issued (autoSaveTick env s) (autoSaveTick env2 (autoSaveTick env s))).filter
          Effect.isDurableWrite ≠ [])) := by
  have hpos : s.mgr.contextData ≠ [] → autoSaveTick env s = (saveContext env s).2 := by
    intro h
    unfold autoSaveTick
    rw [if_pos (List.length_pos.mpr h)]
  have hzero : s.mgr.contextData = [] → autoSaveTick env s = s := by
    intro h
    unfold autoSaveTick
    rw [if_neg (by simp [h])]
  refine ⟨hpos, ?_, ?_, ?_, ?_⟩
  · intro h
    rw [hzero h]
    exact ⟨rfl, issued_self s⟩
  · intro hw hnil
    rw [hzero hnil, issued_self] at hw
    exact hw rfl
  · intro h hkey
    rw [hpos h]
    exact saveContext_issues_write env s hkey
  · intro h
    have hm : (autoSaveTick env s).mgr = s.mgr := by
      rw [hpos h]; exact (saveContext_effect env s).1
    have h2 : (autoSaveTick env s).mgr.contextData ≠ [] := by rw [hm]; exact h
    have htick : autoSaveTick env2 (autoSaveTick env s) =
        (saveContext env2 (autoSaveTick env s)).2 := by
      generalize autoSaveTick env s = t at h2 ⊢
      unfold autoSaveTick
      rw [if_pos (List.length_pos.mpr h2)]
    refine ⟨by rw [hm], htick, ?_⟩
    intro hkey
    rw [htick]
    exact saveContext_issues_write env2 _ (by rw [hm]; exact hkey)

/-- Witness for C12: a tick on the working set `[msgHi, msgHello]`, and a tick on
the empty working set. -/
theorem autoSaveTick_saves_iff_nonempty_witness :
    autoSaveTick okEnv chatSys = (saveContext okEnv chatSys).2 ∧
    autoSaveTick okEnv (initialSys []) = initialSys [] :=
  ⟨(autoSaveTick_saves_iff_nonempty okEnv laterEnv chatSys).1 (by decide),
   ((autoSaveTick_saves_iff_nonempty okEnv laterEnv (initialSys [])).2.1 rfl).1⟩

/-! ### Session identity -/

/-- Outcomes of `initSessionId`: the session id is the locally fabricated
identifier (a defined string) when the call throws, when the response cannot be
decoded and when the status is not success; when the response reports success it
is the response's `session_id` member, whatever that is. -/
theorem initSessionId_outcomes (env : Env) (s : Sys) :
    (env.sessionReply = SessionReply.fetchThrows →
      (initSessionId env s).mgr.sessionId = some (generateSessionId env)) ∧
    (env.sessionReply = SessionReply.jsonThrows →
      (initSessionId env s).mgr.sessionId = some (generateSessionId env)) ∧
    (∀ status sid, env.sessionReply = SessionReply.body status sid → status ≠ "success" →
      (initSessionId env s).mgr.sessionId = some (generateSessionId env)) ∧
    (∀ sid, env.sessionReply = SessionReply.body "success" sid →
      (initSessionId env s).mgr.sessionId = sid) ∧
    (env.sessionReply ≠ SessionReply.body "success" none →
      ∃ id : String, (initSessionId env s).mgr.sessionId = some id) := by
  have h1 : env.sessionReply = SessionReply.fetchThrows →
      (initSessionId env s).mgr.sessionId = some (generateSessionId env) := by
    intro h; simp [initSessionId, h]
  have h2 : env.sessionReply = SessionReply.jsonThrows →
      (initSessionId env s).mgr.sessionId = some (generateSessionId env) := by
    intro h; simp [initSessionId, h]
  have h3 : ∀ status sid, env.sessionReply = SessionReply.body status sid →
      status ≠ "success" →
      (initSessionId env s).mgr.sessionId = some (generateSessionId env) := by
    intro status sid h hne; simp [initSessionId, h, hne]
  have h4 : ∀ sid, env.sessionReply = SessionReply.body "success" sid →
      (initSessionId env s).mgr.sessionId = sid := by
    intro sid h; simp [initSessionId, h]
  refine ⟨h1, h2, h3, h4, ?_⟩
  intro hne
  cases hr : env.sessionReply with
  | fetchThrows => exact ⟨_, h1 hr⟩
  | jsonThrows => exact ⟨_, h2 hr⟩
  | body status sid =>
    by_cases hs : status = "success"
    · subst hs
      cases sid with
      | none => exact absurd hr hne
      | some id => exact ⟨id, h4 _ hr⟩
    · exact ⟨_, h3 status sid hr hs⟩

/-- C13 at the failing input: the session-id endpoint answers success with no
`session_id` member. `initSessionId` assigns that missing member, so the session
id is undefined afterwards, where every other outcome ends with a defined id (a
thrown call gives the fabricated one); and with the store open and the server
holding no context, `init` then rejects at the local load, so neither the
autosave timer nor the `beforeunload` listener is registered. -/
theorem initSessionId_success_without_id :
    (initSessionId successNoIdEnv (initialSys [])).mgr.sessionId = none ∧
    (initSessionId { okEnv with sessionReply := SessionReply.fetchThrows }
      (initialSys [])).mgr.sessionId = some "session_1704067200000_k3j9x0a1b" ∧
    (initSessionId okEnv (initialSys [])).mgr.sessionId = some "srv-1" ∧
    (init successNoIdEnv (initialSys [])).1 = Completion.rejected "DataError" ∧
    (init successNoIdEnv (initialSys [])).2.trace =
      [Effect.fetchSessionId, Effect.idbOpen "EduBotContextDB" 1, Effect.fetchLoad] := by
  decide

/-! ### Clearing -/

/-- C14 at the failing input: `chatSys` has an open store handle and the `delete`
request fires `onerror`; `clearContext` empties the working set and issues the
`delete`, then rejects without issuing the remote clear. With the `delete`
succeeding the remote clear follows it. -/
theorem clearContext_delete_error_blocks_remote :
    (clearContext deleteFailsEnv chatSys).2.mgr.contextData = [] ∧
    (issued chatSys (clearContext deleteFailsEnv chatSys).2).filter Effect.isLocalRequest =
      [Effect.idbDelete (some "srv-1")] ∧
    (issued chatSys (clearContext deleteFailsEnv chatSys).2).filter Effect.isRemoteClear = [] ∧
    issued chatSys (clearContext okEnv chatSys).2 =
      [Effect.idbDelete (some "srv-1"), Effect.fetchClear] := by
  decide

/-! ### Frames -/

/-- C15 (frame of `addMessage`): one `addMessage` call changes the working set
only: the trace gets no new effect (no store request, no network call), the local
store is as before, and the session id, the store handle, the retention limit, the
autosave period and the store names are unchanged. -/
theorem addMessage_frame (s : Sys) (sender text : String) (timestamp : Option String)
    (nowISO : String) :
    issued s (step s (Action.addMessage sender text timestamp nowISO)) = [] ∧
    (step s (Action.addMessage sender text timestamp nowISO)).trace = s.trace ∧
    (step s (Action.addMessage sender text timestamp nowISO)).store = s.store ∧
    (step s (Action.addMessage sender text timestamp nowISO)).mgr =
      { s.mgr with contextData :=
          (s.mgr.addMessage sender text timestamp nowISO).contextData } ∧
    (s.mgr.addMessage sender text timestamp nowISO).sessionId = s.mgr.sessionId ∧
    (s.mgr.addMessage sender text timestamp nowISO).db = s.mgr.db ∧
    (s.mgr.addMessage sender text timestamp nowISO).maxLocalMessages =
      s.mgr.maxLocalMessages ∧
    (s.mgr.addMessage sender text timestamp nowISO).autoSaveInterval =
      s.mgr.autoSaveInterval := by
  have hm : s.mgr.addMessage sender text timestamp nowISO =
      { s.mgr with contextData :=
          (s.mgr.addMessage sender text timestamp nowISO).contextData } := by
    unfold ContextMemoryManager.addMessage
    simp only []
    split <;> rfl
  refine ⟨?_, rfl, rfl, ?_, ?_, ?_, ?_, ?_⟩
  · simp [issued, step]
  · simp only [step]; exact hm
  · rw [hm]
  · rw [hm]
  · rw [hm]
  · rw [hm]

/-- C16 (read-only getters): `getRecentMessages(limit)`, `getMessageCount()` and
`hasContext()` leave the whole system (working set, every engine field, store,
trace) as it was; `getMessageCount()` is the length of the working set and
`hasContext()` is true exactly when `getMessageCount() > 0`. -/
theorem getters_read_only (s : Sys) (limit : Int) :
    (s.getRecentMessages limit).2 = s ∧ (s.getMessageCount).2 = s ∧ (s.hasContext).2 = s ∧
    (s.getMessageCount).1 = s.mgr.contextData.length ∧
    ((s.hasContext).1 = true ↔ (s.getMessageCount).1 > 0) := by
  refine ⟨rfl, rfl, rfl, rfl, ?_⟩
  simp [Sys.hasContext, Sys.getMessageCount, ContextMemoryManager.hasContext,
    ContextMemoryManager.getMessageCount]

/-! ### The remote tier -/

/-- C17 (remote load degrades to no record): `loadFromAPI` returns `[]` when the
network call throws, when the body cannot be decoded, when the status is not
success, when `has_context` is false, and when a success response carries no
`data` or no `context_data`; it returns the server's list unchanged for a success
response with `has_context` true and a list present, and a non-empty result can
only come from such a response. -/
theorem loadFromAPI_degrades (env : Env) (s : Sys) :
    (env.loadReply = LoadReply.fetchThrows → (loadFromAPI env s).1 = []) ∧
    (env.loadReply = LoadReply.jsonThrows → (loadFromAPI env s).1 = []) ∧
    (∀ status hc data, env.loadReply = LoadReply.body status hc data →
      status ≠ "success" → (loadFromAPI env s).1 = []) ∧
    (∀ status data, env.loadReply = LoadReply.body status false data →
      (loadFromAPI env s).1 = []) ∧
    (∀ status hc, env.loadReply = LoadReply.body status hc none →
      (loadFromAPI env s).1 = []) ∧
    (∀ status hc, env.loadReply = LoadReply.body status hc (some none) →
      (loadFromAPI env s).1 = []) ∧
    (∀ msgs, env.loadReply = LoadReply.body "success" true (some (some msgs)) →
      (loadFromAPI env s).1 = msgs) ∧
    ((loadFromAPI env s).1 ≠ [] →
      env.loadReply = LoadReply.body "success" true (some (some (loadFromAPI env s).1))) := by
  refine ⟨?_, ?_, ?_, ?_, ?_, ?_, ?_, ?_⟩
  · intro h; simp [loadFromAPI, h]
  · intro h; simp [loadFromAPI, h]
  · intro status hc data h hne; simp [loadFromAPI, h, hne]
  · intro status data h; simp [loadFromAPI, h]
  · intro status hc h
    simp only [loadFromAPI, h]
    split <;> rfl
  · intro status hc h
    simp only [loadFromAPI, h]
    split <;> rfl
  · intro msgs h; simp [loadFromAPI, h]
  · intro hne
    cases hr : env.loadReply with
    | fetchThrows => simp [loadFromAPI, hr] at hne
    | jsonThrows => simp [loadFromAPI, hr] at hne
    | body status hc data =>
      by_cases hs : status = "success"
      · subst hs
        cases hc with
        | false => simp [loadFromAPI, hr] at hne
        | true =>
          cases data with
          | none => simp [loadFromAPI, hr] at hne
          | some d =>
            cases d with
            | none => simp [loadFromAPI, hr] at hne
            | some msgs => simp [loadFromAPI, hr]
      · simp [loadFromAPI, hr, hs] at hne

/-- Witness for C17: the network call throws; and the server answers with
`[msgHi, msgHello]`. -/
theorem loadFromAPI_degrades_witness :
    (loadFromAPI { okEnv with loadReply := LoadReply.fetchThrows } chatSys).1 = [] ∧
    (loadFromAPI clearFailsEnv chatSys).1 = [msgHi, msgHello] :=
  ⟨(loadFromAPI_degrades { okEnv with loadReply := LoadReply.fetchThrows } chatSys).1 rfl,
   (loadFromAPI_degrades clearFailsEnv chatSys).2.2.2.2.2.2.1 [msgHi, msgHello] rfl⟩

/-- C18 (remote save payload): for every state `saveToAPI` issues exactly one
save request, whose body is `JSON.stringify` of the object with the one member
`messages` holding the whole working set in order; the body is a function of the
working set alone, so two engines with the same working set send the same body
whatever their session ids. -/
theorem saveToAPI_payload (env : Env) (s t : Sys) :
    (issued s (saveToAPI env s)).filter Effect.isRemoteSave =
      [Effect.fetchSave (env.stringify s.mgr.contextData)] ∧
    (s.mgr.contextData = t.mgr.contextData →
      (issued t (saveToAPI env t)).filter Effect.isRemoteSave =
        (issued s (saveToAPI env s)).filter Effect.isRemoteSave) := by
  have key : ∀ u : Sys, (issued u (saveToAPI env u)).filter Effect.isRemoteSave =
      [Effect.fetchSave (env.stringify u.mgr.contextData)] := by
    intro u
    obtain ⟨_, _, logs, hlogs, ht⟩ := saveToAPI_spec env u
    rw [issued_of_trace u _ _ ht]
    have r := filter_eq_nil_of_forall_false Effect.isRemoteSave logs
      (fun e he => isPageOnly_not_remoteSave e (hlogs e he))
    simp [List.filter_cons, Effect.isRemoteSave, r]
  refine ⟨key s, ?_⟩
  intro h
  rw [key s, key t, h]

/-- Witness for C18: the working set `[msgHi, msgHello]` under session `srv-1` and
under another session. -/
theorem saveToAPI_payload_witness :
    (issued (Sys.mk { chatSys.mgr with sessionId := some "other" } [] [])
        (saveToAPI okEnv (Sys.mk { chatSys.mgr with sessionId := some "other" } [] []))).filter
        Effect.isRemoteSave =
      (issued chatSys (saveToAPI okEnv chatSys)).filter Effect.isRemoteSave :=
  (saveToAPI_payload okEnv chatSys
    (Sys.mk { chatSys.mgr with sessionId := some "other" } [] [])).2 rfl

/-- C19 (clear-then-resurrect gap): there is an execution in which the server
holds a non-empty record `R` (every load is answered with it), the engine holds
`R`, `clearContext` runs with the remote clear failing, after which the working
set is empty and `hasContext()` is false, and the next `loadContext` adopts `R`
again. -/
theorem clear_then_resurrect :
    ∃ (env : Env) (s : Sys) (R : List Message), R ≠ [] ∧ s.mgr.contextData = R ∧
      env.loadReply = LoadReply.body "success" true (some (some R)) ∧
      env.clearReply = PostReply.fetchThrows ∧
      (issued s (clearContext env s).2).filter Effect.isRemoteClear = [Effect.fetchClear] ∧
      (clearContext env s).2.mgr.contextData = [] ∧
      (clearContext env s).2.mgr.hasContext = false ∧
      (loadContext env (clearContext env s).2).2.mgr.contextData = R :=
  ⟨clearFailsEnv, chatSys, [msgHi, msgHello], by decide, rfl, rfl, rfl, by decide, by decide,
    by decide, by decide⟩

/-! ### The local tier -/

/-- A `get` right after a `put` finds the record that was put. -/
theorem storeGet_storePut (store : List ConversationRecord) (r : ConversationRecord) :
    storeGet (storePut store r) r.session_id = some r := by
  simp [storeGet, storePut]

/-- After a `put` the store holds exactly one record under that key. -/
theorem storePut_unique (store : List ConversationRecord) (r : ConversationRecord) :
    (storePut store r).filter (fun x => decide (x.session_id = r.session_id)) = [r] := by
  simp only [storePut, List.filter_cons, decide_True, if_true, List.filter_filter]
  simp

/-- C20 (local store round trip): with an open store handle, a session id and every
request succeeding, `loadFromIndexedDB` after `saveToIndexedDB` resolves with
exactly the working set that was saved; the stored record is keyed by the engine's
session id; and after a later save of another working set under the same session
the store holds one record for the session and the load returns that later
working set. -/
theorem local_store_round_trip (env1 env2 env3 : Env) (s : Sys) (h : IDBDatabase)
    (sid : String) (newer : List Message)
    (hdb : s.mgr.db = some h) (hsid : s.mgr.sessionId = some sid)
    (hput1 : env1.putOutcome = IDBOutcome.onsuccess)
    (hput2 : env2.putOutcome = IDBOutcome.onsuccess)
    (hget : env3.getOutcome = IDBOutcome.onsuccess) :
    (saveToIndexedDB env1 s).1 = Completion.resolved ∧
    (loadFromIndexedDB env3 (saveToIndexedDB env1 s).2).1 = Except.ok s.mgr.contextData ∧
    storeGet (saveToIndexedDB env1 s).2.store (some sid) =
      some (ConversationRecord.mk (some sid) s.mgr.contextData env1.nowISO) ∧
    (loadFromIndexedDB env3
      (saveToIndexedDB env2 ((saveToIndexedDB env1 s).2.setContext newer)).2).1 =
      Except.ok newer ∧
    (saveToIndexedDB env2 ((saveToIndexedDB env1 s).2.setContext newer)).2.store.filter
        (fun x => decide (x.session_id = some sid)) =
      [ConversationRecord.mk (some sid) newer env2.nowISO] := by
  have e1 := saveToIndexedDB_ok env1 s h sid hdb hsid hput1
  have hrec1 : saveRecord s.mgr env1.nowISO =
      ConversationRecord.mk (some sid) s.mgr.contextData env1.nowISO := by
    simp [saveRecord, hsid]
  have hget1 : storeGet (saveToIndexedDB env1 s).2.store (some sid) =
      some (ConversationRecord.mk (some sid) s.mgr.contextData env1.nowISO) := by
    rw [e1]
    simp only []
    rw [hrec1]
    exact storeGet_storePut s.store _
  have hm1 : (saveToIndexedDB env1 s).2.mgr = s.mgr := (saveToIndexedDB_effect env1 s).1
  have hdb2 : ((saveToIndexedDB env1 s).2.setContext newer).mgr.db = some h := by
    rw [setContext_db, hm1]; exact hdb
  have hsid2 : ((saveToIndexedDB env1 s).2.setContext newer).mgr.sessionId = some sid := by
    rw [setContext_sessionId, hm1]; exact hsid
  have e2 := saveToIndexedDB_ok env2 ((saveToIndexedDB env1 s).2.setContext newer) h sid
    hdb2 hsid2 hput2
  have hrec2 : saveRecord ((saveToIndexedDB env1 s).2.setContext newer).mgr env2.nowISO =
      ConversationRecord.mk (some sid) newer env2.nowISO := by
    simp [saveRecord, hm1, hsid]
  have hm2 : (saveToIndexedDB env2 ((saveToIndexedDB env1 s).2.setContext newer)).2.mgr =
      ((saveToIndexedDB env1 s).2.setContext newer).mgr :=
    (saveToIndexedDB_effect env2 _).1
  have hget2 : storeGet
      (saveToIndexedDB env2 ((saveToIndexedDB env1 s).2.setContext newer)).2.store (some sid) =
      some (ConversationRecord.mk (some sid) newer env2.nowISO) := by
    rw [e2]
    simp only []
    rw [hrec2]
    exact storeGet_storePut _ _
  refine ⟨by rw [e1], ?_, hget1, ?_, ?_⟩
  · exact loadFromIndexedDB_hit env3 (saveToIndexedDB env1 s).2 h sid _
      (by rw [hm1]; exact hdb) (by rw [hm1]; exact hsid) hget hget1
  · exact loadFromIndexedDB_hit env3
      (saveToIndexedDB env2 ((saveToIndexedDB env1 s).2.setContext newer)).2 h sid _
      (by rw [hm2]; exact hdb2) (by rw [hm2]; exact hsid2) hget hget2
  · rw [e2]
    simp only []
    rw [hrec2]
    exact storePut_unique _ _

/-- Witness for C20: `chatSys` is saved, the working set becomes `[msgHello]`, and
it is saved again thirty seconds later. -/
theorem local_store_round_trip_witness :
    (loadFromIndexedDB okEnv (saveToIndexedDB okEnv chatSys).2).1 =
      Except.ok [msgHi, msgHello] ∧
    (loadFromIndexedDB okEnv
      (saveToIndexedDB laterEnv ((saveToIndexedDB okEnv chatSys).2.setContext [msgHello])).2).1 =
      Except.ok [msgHello] :=
  ⟨(local_store_round_trip okEnv laterEnv okEnv chatSys
      { name := "EduBotContextDB", version := 1 } "srv-1" [msgHello] rfl rfl rfl rfl rfl).2.1,
   (local_store_round_trip okEnv laterEnv okEnv chatSys
      { name := "EduBotContextDB", version := 1 } "srv-1" [msgHello]
      rfl rfl rfl rfl rfl).2.2.2.1⟩

/-! ### Saving leaves the engine alone -/

/-- C21 (save copies, never moves): for every state and every outcome of the two
tiers' writes, `saveContext` leaves the working set and the session id (every
field of the engine) exactly as they were. -/
theorem saveContext_keeps_working_set (env : Env) (s : Sys) :
    (saveContext env s).2.mgr.contextData = s.mgr.contextData ∧
    (saveContext env s).2.mgr.sessionId = s.mgr.sessionId ∧
    (saveContext env s).2.mgr = s.mgr := by
  have h := (saveContext_effect env s).1
  exact ⟨by rw [h], by rw [h], h⟩

/-! ### Restoration -/

/-- The restoration step adds exactly `restoreEffects` to the trace and changes
nothing else. -/
theorem restoreMessagesToUI_eq (env : Env) (s : Sys) :
    restoreMessagesToUI env s =
      { s with trace := s.trace ++ restoreEffects env s.mgr.contextData } := by
  unfold restoreMessagesToUI restoreEffects
  simp only [Sys.emit]
  cases env.messagesContainer <;> cases env.welcomeScreen <;> cases env.windowAddMessage <;>
    cases env.toastManager <;> by_cases h : s.mgr.contextData.length > 0 <;> simp [h]

theorem filter_restoreCall_restoreEffects (env : Env) (cd : List Message) :
    (restoreEffects env cd).filter Effect.isRestoreCall = [Effect.restoreCall cd] := by
  unfold restoreEffects
  cases env.messagesContainer <;> cases env.welcomeScreen <;> cases env.windowAddMessage <;>
    cases env.toastManager <;> by_cases h : cd.length > 0 <;>
    simp [h, List.filter_cons, List.filter_append, Effect.isRestoreCall, List.filter_map,
      Function.comp_def]

theorem filter_render_restoreEffects (env : Env) (cd : List Message) :
    (restoreEffects env cd).filter Effect.isRender =
      if env.messagesContainer && env.windowAddMessage
        then cd.map (fun msg => Effect.renderMessage msg.text msg.sender false) else [] := by
  unfold restoreEffects
  cases env.messagesContainer <;> cases env.welcomeScreen <;> cases env.windowAddMessage <;>
    cases env.toastManager <;> by_cases h : cd.length > 0 <;>
    simp [h, List.filter_cons, List.filter_append, Effect.isRender, List.filter_map,
      Function.comp_def]

theorem filter_toast_restoreEffects (env : Env) (cd : List Message) (hcd : cd ≠ []) :
    (restoreEffects env cd).filter Effect.isToast =
      if env.messagesContainer && env.toastManager
        then [Effect.toast
          ("Restored " ++ toString cd.length ++ " messages from previous session")
          "success" 3000]
        else [] := by
  have h : cd.length > 0 := List.length_pos.mpr hcd
  unfold restoreEffects
  cases env.messagesContainer <;> cases env.welcomeScreen <;> cases env.windowAddMessage <;>
    cases env.toastManager <;>
    simp [h, List.filter_cons, List.filter_append, Effect.isToast, List.filter_map,
      Function.comp_def]

/-- The remote load adds only tier traffic to the trace. -/
theorem loadFromAPI_traffic (env : Env) (s : Sys) :
    ∃ es : List Effect, (∀ e ∈ es, e.isTierTraffic = true) ∧
      (loadFromAPI env s).2.trace = s.trace ++ es := by
  unfold loadFromAPI
  simp only []
  split
  · exact ⟨[Effect.fetchLoad, Effect.consoleError "[Context] Error loading from API:"],
      by simp [Effect.isTierTraffic], by simp⟩
  · exact ⟨[Effect.fetchLoad, Effect.consoleError "[Context] Error loading from API:"],
      by simp [Effect.isTierTraffic], by simp⟩
  · split
    · split
      · exact ⟨[Effect.fetchLoad, Effect.consoleError "[Context] Error loading from API:"],
          by simp [Effect.isTierTraffic], by simp⟩
      · exact ⟨[Effect.fetchLoad], by simp [Effect.isTierTraffic], by simp⟩
      · exact ⟨[Effect.fetchLoad], by simp [Effect.isTierTraffic], by simp⟩
    · exact ⟨[Effect.fetchLoad], by simp [Effect.isTierTraffic], by simp⟩

/-- The local load adds only tier traffic to the trace. -/
theorem loadFromIndexedDB_traffic (env : Env) (s : Sys) :
    ∃ es : List Effect, (∀ e ∈ es, e.isTierTraffic = true) ∧
      (loadFromIndexedDB env s).2.trace = s.trace ++ es := by
  unfold loadFromIndexedDB
  split
  · exact ⟨[], by simp, by simp⟩
  · split
    · exact ⟨[], by simp, by simp⟩
    · simp only []
      split
      · split
        · exact ⟨[Effect.idbGet s.mgr.sessionId], by simp [Effect.isTierTraffic], by simp⟩
        · exact ⟨[Effect.idbGet s.mgr.sessionId], by simp [Effect.isTierTraffic], by simp⟩
      · exact ⟨[Effect.idbGet s.mgr.sessionId,
            Effect.consoleError "[Context] Error loading from IndexedDB:"],
          by simp [Effect.isTierTraffic], by simp⟩

/-- The remote save adds only tier traffic to the trace. -/
theorem saveToAPI_traffic (env : Env) (s : Sys) :
    ∃ es : List Effect, (∀ e ∈ es, e.isTierTraffic = true) ∧
      (saveToAPI env s).trace = s.trace ++ es := by
  unfold saveToAPI
  simp only []
  split
  · exact ⟨[Effect.fetchSave (env.stringify s.mgr.contextData),
        Effect.consoleError "[Context] Error saving to API:"],
      by simp [Effect.isTierTraffic], by simp⟩
  · exact ⟨[Effect.fetchSave (env.stringify s.mgr.contextData),
        Effect.consoleError "[Context] Error saving to API:"],
      by simp [Effect.isTierTraffic], by simp⟩
  · split
    · exact ⟨[Effect.fetchSave (env.stringify s.mgr.contextData)],
        by simp [Effect.isTierTraffic], by simp⟩
    · exact ⟨[Effect.fetchSave (env.stringify s.mgr.contextData),
          Effect.consoleError "[Context] Error saving to API:"],
        by simp [Effect.isTierTraffic], by simp⟩

/-- What `loadContext` issues, by the three ways it can go: a non-empty remote
answer is adopted and restored; or the remote answer is empty and a non-empty
local record is adopted and restored; or the remote answer is empty and the local
load finds nothing or rejects, and then no field changes and nothing is restored.
Around the restoration there is tier traffic only. -/
theorem loadContext_shape (env : Env) (s : Sys) :
    ∃ pre post : List Effect, (∀ e ∈ pre, e.isTierTraffic = true) ∧
      (∀ e ∈ post, e.isTierTraffic = true) ∧
      (((loadFromAPI env s).1 ≠ [] ∧
          (loadContext env s).2.mgr.contextData = (loadFromAPI env s).1 ∧
          issued s (loadContext env s).2 =
            pre ++ restoreEffects env (loadContext env s).2.mgr.contextData ++ post) ∨
        ((loadFromAPI env s).1 = [] ∧ (loadContext env s).2.mgr.contextData ≠ [] ∧
          (loadFromIndexedDB env s).1 = Except.ok (loadContext env s).2.mgr.contextData ∧
          issued s (loadContext env s).2 =
            pre ++ restoreEffects env (loadContext env s).2.mgr.contextData ++ post) ∨
        ((loadFromAPI env s).1 = [] ∧
          ((loadFromIndexedDB env s).1 = Except.ok [] ∨
            ∃ err, (loadFromIndexedDB env s).1 = Except.error err) ∧
          (loadContext env s).2.mgr = s.mgr ∧
          issued s (loadContext env s).2 = pre ++ post)) := by
  obtain ⟨es1, h1, t1⟩ := loadFromAPI_traffic env s
  obtain ⟨es2, h2, t2⟩ := loadFromIndexedDB_traffic env (loadFromAPI env s).2
  have h12 : ∀ e ∈ es1 ++ es2, e.isTierTraffic = true := by
    intro e he
    rcases List.mem_append.mp he with he | he
    · exact h1 e he
    · exact h2 e he
  by_cases ha : (loadFromAPI env s).1 = []
  · have idle : ((loadFromIndexedDB env s).1 = Except.ok [] ∨
        ∃ err, (loadFromIndexedDB env s).1 = Except.error err) →
        (loadContext env s).2 = (loadFromIndexedDB env (loadFromAPI env s).2).2 := by
      intro hc
      rcases hc with hc | ⟨err, hc⟩
      · rw [loadContext_none env s ha (by rw [loadFromIndexedDB_after_api]; exact hc)]
      · rw [loadContext_rejected env s err ha
          (by rw [loadFromIndexedDB_after_api]; exact hc)]
    have idleCase : ((loadFromIndexedDB env s).1 = Except.ok [] ∨
        ∃ err, (loadFromIndexedDB env s).1 = Except.error err) →
        ∃ pre post : List Effect, (∀ e ∈ pre, e.isTierTraffic = true) ∧
          (∀ e ∈ post, e.isTierTraffic = true) ∧
          ((loadFromAPI env s).1 = [] ∧
            ((loadFromIndexedDB env s).1 = Except.ok [] ∨
              ∃ err, (loadFromIndexedDB env s).1 = Except.error err) ∧
            (loadContext env s).2.mgr = s.mgr ∧
            issued s (loadContext env s).2 = pre ++ post) := by
      intro hc
      refine ⟨es1 ++ es2, [], h12, by simp, ha, hc,
        (loadContext_idle_trace env s ha hc).1, ?_⟩
      apply issued_of_trace
      rw [idle hc, t2, t1]
      simp
    rcases loadFromIndexedDB_cases env s with herr | hnil | ⟨S, hS, hok⟩
    · obtain ⟨pre, post, hp, hq, hc⟩ := idleCase (Or.inr herr)
      exact ⟨pre, post, hp, hq, Or.inr (Or.inr hc)⟩
    · obtain ⟨pre, post, hp, hq, hc⟩ := idleCase (Or.inl hnil)
      exact ⟨pre, post, hp, hq, Or.inr (Or.inr hc)⟩
    · have hok2 : (loadFromIndexedDB env (loadFromAPI env s).2).1 = Except.ok S := by
        rw [loadFromIndexedDB_after_api]; exact hok
      obtain ⟨es3, h3, t3⟩ := saveToAPI_traffic env (restoreMessagesToUI env
        ((loadFromIndexedDB env (loadFromAPI env s).2).2.setContext S))
      have hcd : (loadContext env s).2.mgr.contextData = S :=
        (loadContext_local_trace env s S ha hok hS).2.1
      refine ⟨es1 ++ es2, es3, h12, h3, Or.inr (Or.inl ⟨ha, by rw [hcd]; exact hS,
        by rw [hcd]; exact hok, ?_⟩)⟩
      apply issued_of_trace
      rw [hcd]
      rw [loadContext_local env s S ha hok2 hS, t3, restoreMessagesToUI_eq]
      simp only [setContext_trace, setContext_contextData, t2, t1, List.append_assoc]
  · have hcd : (loadContext env s).2.mgr.contextData = (loadFromAPI env s).1 :=
      (loadContext_remote_trace env s ha).1
    refine ⟨es1, [], h1, by simp, Or.inl ⟨ha, hcd, ?_⟩⟩
    apply issued_of_trace
    rw [hcd]
    rw [loadContext_remote env s ha, restoreMessagesToUI_eq]
    simp only [setContext_trace, setContext_contextData, t1, List.append_assoc,
      List.append_nil]

theorem isTierTraffic_classes (e : Effect) (h : e.isTierTraffic = true) :
    e.isRestoreCall = false ∧ e.isRender = false ∧ e.isToast = false := by
  cases e <;> simp_all [Effect.isTierTraffic, Effect.isRestoreCall, Effect.isRender,
    Effect.isToast]

/-- C22, as amended: one `loadContext` call goes one of three ways. With a
non-empty remote answer, or with an empty remote answer and a non-empty record
returned by the local load, that record becomes the working set and the
restoration step is called exactly once, with it: the messages are handed to the
render callback one by one in working-set order when the page has the
`messagesContainer` and `window.addMessage` (none otherwise), each with
`saveToContext = false`, and they are not re-appended (the working set is still
the adopted record afterwards), and one
toast with the number of restored messages is shown when the page has the
`messagesContainer` and `window.toastManager` (none otherwise). With an empty
remote answer and a local load that finds nothing or rejects, no field of the
engine changes and there is no restoration call, no render and no toast. -/
theorem loadContext_restoration (env : Env) (s : Sys) :
    (((loadFromAPI env s).1 ≠ [] ∧
        (loadContext env s).2.mgr.contextData = (loadFromAPI env s).1) ∨
      ((loadFromAPI env s).1 = [] ∧ (loadContext env s).2.mgr.contextData ≠ [] ∧
        (loadFromIndexedDB env s).1 = Except.ok (loadContext env s).2.mgr.contextData)) ∧
      (issued s (loadContext env s).2).filter Effect.isRestoreCall =
        [Effect.restoreCall (loadContext env s).2.mgr.contextData] ∧
      (issued s (loadContext env s).2).filter Effect.isRender =
        (if env.messagesContainer && env.windowAddMessage
          then (loadContext env s).2.mgr.contextData.map
            (fun msg => Effect.renderMessage msg.text msg.sender false)
          else []) ∧
      (issued s (loadContext env s).2).filter Effect.isToast =
        (if env.messagesContainer && env.toastManager
          then [Effect.toast
            ("Restored " ++ toString (loadContext env s).2.mgr.contextData.length ++
              " messages from previous session") "success" 3000]
          else []) ∨
    ((loadFromAPI env s).1 = [] ∧
      ((loadFromIndexedDB env s).1 = Except.ok [] ∨
        ∃ err, (loadFromIndexedDB env s).1 = Except.error err) ∧
      (loadContext env s).2.mgr = s.mgr ∧
      (issued s (loadContext env s).2).filter Effect.isRestoreCall = [] ∧
      (issued s (loadContext env s).2).filter Effect.isRender = [] ∧
      (issued s (loadContext env s).2).filter Effect.isToast = []) := by
  obtain ⟨pre, post, hpre, hpost, hshape⟩ := loadContext_shape env s
  have fpre : ∀ p : Effect → Bool, (∀ e, e.isTierTraffic = true → p e = false) →
      pre.filter p = [] := fun p hp =>
    filter_eq_nil_of_forall_false p pre (fun e he => hp e (hpre e he))
  have fpost : ∀ p : Effect → Bool, (∀ e, e.isTierTraffic = true → p e = false) →
      post.filter p = [] := fun p hp =>
    filter_eq_nil_of_forall_false p post (fun e he => hp e (hpost e he))
  have c1 : ∀ e : Effect, e.isTierTraffic = true → e.isRestoreCall = false :=
    fun e h => (isTierTraffic_classes e h).1
  have c2 : ∀ e : Effect, e.isTierTraffic = true → e.isRender = false :=
    fun e h => (isTierTraffic_classes e h).2.1
  have c3 : ∀ e : Effect, e.isTierTraffic = true → e.isToast = false :=
    fun e h => (isTierTraffic_classes e h).2.2
  have restored : (loadContext env s).2.mgr.contextData ≠ [] →
      issued s (loadContext env s).2 =
        pre ++ restoreEffects env (loadContext env s).2.mgr.contextData ++ post →
      (issued s (loadContext env s).2).filter Effect.isRestoreCall =
        [Effect.restoreCall (loadContext env s).2.mgr.contextData] ∧
      (issued s (loadContext env s).2).filter Effect.isRender =
        (if env.messagesContainer && env.windowAddMessage
          then (loadContext env s).2.mgr.contextData.map
            (fun msg => Effect.renderMessage msg.text msg.sender false)
          else []) ∧
      (issued s (loadContext env s).2).filter Effect.isToast =
        (if env.messagesContainer && env.toastManager
          then [Effect.toast
            ("Restored " ++ toString (loadContext env s).2.mgr.contextData.length ++
              " messages from previous session") "success" 3000]
          else []) := by
    intro hne h
    refine ⟨?_, ?_, ?_⟩
    · rw [h]
      simp only [List.filter_append, fpre _ c1, fpost _ c1, List.append_nil, List.nil_append,
        filter_restoreCall_restoreEffects]
    · rw [h]
      simp only [List.filter_append, fpre _ c2, fpost _ c2, List.append_nil, List.nil_append,
        filter_render_restoreEffects]
    · rw [h]
      simp only [List.filter_append, fpre _ c3, fpost _ c3, List.append_nil, List.nil_append,
        filter_toast_restoreEffects env _ hne]
  rcases hshape with ⟨ha, hcd, h⟩ | ⟨ha, hne, hloc, h⟩ | ⟨ha, hloc, hm, h⟩
  · left
    exact ⟨Or.inl ⟨ha, hcd⟩, restored (by rw [hcd]; exact ha) h⟩
  · left
    exact ⟨Or.inr ⟨ha, hne, hloc⟩, restored hne h⟩
  · right
    refine ⟨ha, hloc, hm, ?_, ?_, ?_⟩
    · rw [h]
      simp only [List.filter_append, fpre _ c1, fpost _ c1, List.append_nil]
    · rw [h]
      simp only [List.filter_append, fpre _ c2, fpost _ c2, List.append_nil]
    · rw [h]
      simp only [List.filter_append, fpre _ c3, fpost _ c3, List.append_nil]

/-- Counterexample to C22 as stated: the local record `[msgHi]` is adopted and
the restoration step is called, but on a page without `window.toastManager` no
notification is shown, and on a page without the `messagesContainer` element
nothing is handed to the render callback either. -/
theorem loadContext_restoration_without_page_parts :
    (loadContext noToastEnv localOnlySys).2.mgr.contextData = [msgHi] ∧
    (issued localOnlySys (loadContext noToastEnv localOnlySys).2).filter Effect.isRestoreCall =
      [Effect.restoreCall [msgHi]] ∧
    (issued localOnlySys (loadContext noToastEnv localOnlySys).2).filter Effect.isToast = [] ∧
    (loadContext noContainerEnv localOnlySys).2.mgr.contextData = [msgHi] ∧
    (issued localOnlySys (loadContext noContainerEnv localOnlySys).2).filter
      Effect.isRestoreCall = [Effect.restoreCall [msgHi]] ∧
    (issued localOnlySys (loadContext noContainerEnv localOnlySys).2).filter
      Effect.isRender = [] ∧
    (issued localOnlySys (loadContext noContainerEnv localOnlySys).2).filter
      Effect.isToast = [] := by
  decide

/-! ### What `addMessage` appends -/

/-- Whatever the limit, `addMessage` leaves a suffix of the old working set
followed by the new message. -/
theorem addMessage_suffix (m : ContextMemoryManager) (sender text : String)
    (timestamp : Option String) (nowISO : String) :
    ∃ k : Nat, (m.addMessage sender text timestamp nowISO).contextData =
      m.contextData.drop k ++ [mkMessage sender text timestamp nowISO] := by
  unfold ContextMemoryManager.addMessage
  simp only []
  split
  · rename_i hgt
    simp only [List.length_append, List.length_singleton] at hgt
    unfold jsSlice
    split
    · refine ⟨m.contextData.length + 1 - m.maxLocalMessages, ?_⟩
      have e : Int.toNat (((m.contextData ++ [mkMessage sender text timestamp nowISO]).length
          : Int) + -(m.maxLocalMessages : Int)) =
          m.contextData.length + 1 - m.maxLocalMessages := by
        simp only [List.length_append, List.length_singleton]
        omega
      simp only [e]
      exact List.drop_append_of_le_length (by omega)
    · refine ⟨0, ?_⟩
      have e : Int.toNat (-(m.maxLocalMessages : Int)) = 0 := by omega
      simp [e]
  · exact ⟨0, by simp⟩

/-- Every message of the working set built by a sequence of calls on an empty
working set is the message of one of the calls. -/
theorem addAll_mem (m : ContextMemoryManager) (hm : m.contextData = [])
    (calls : List AddCall) :
    ∀ msg ∈ (addAll m calls).contextData, ∃ c ∈ calls, msg = c.message := by
  induction calls using List.reverseRecOn with
  | nil =>
    intro msg hmsg
    simp [addAll, hm] at hmsg
  | append_singleton cs c ih =>
    intro msg hmsg
    rw [addAll_concat] at hmsg
    obtain ⟨k, hk⟩ := addMessage_suffix (addAll m cs) c.sender c.text c.timestamp c.nowISO
    rw [hk] at hmsg
    rcases List.mem_append.mp hmsg with h | h
    · obtain ⟨c0, hc0, e⟩ := ih msg (List.mem_of_mem_drop h)
      exact ⟨c0, List.mem_append_left _ hc0, e⟩
    · refine ⟨c, by simp, ?_⟩
      simpa [AddCall.message] using h

/-- C23, as amended: after any sequence of `addMessage` calls on an empty working
set, every message held has the sender that was passed to the call that appended
it; so every sender lies in a given set of roles whenever every call passed a
sender of that set. `addMessage` itself accepts any sender. -/
theorem addMessage_senders_from_calls (m : ContextMemoryManager) (hm : m.contextData = [])
    (calls : List AddCall) (roles : List String) :
    (∀ msg ∈ (addAll m calls).contextData, ∃ c ∈ calls, msg = c.message ∧
      msg.sender = c.sender) ∧
    ((∀ c ∈ calls, c.sender ∈ roles) →
      ∀ msg ∈ (addAll m calls).contextData, msg.sender ∈ roles) := by
  have h1 : ∀ msg ∈ (addAll m calls).contextData, ∃ c ∈ calls, msg = c.message ∧
      msg.sender = c.sender := by
    intro msg hmsg
    obtain ⟨c, hc, e⟩ := addAll_mem m hm calls msg hmsg
    exact ⟨c, hc, e, by rw [e]; rfl⟩
  refine ⟨h1, ?_⟩
  intro hroles msg hmsg
  obtain ⟨c, hc, _, e⟩ := h1 msg hmsg
  rw [e]
  exact hroles c hc

/-- Witness for C23 as amended: two calls with senders `user` and `assistant`; the
message of the second call is held and its sender is one of the two. -/
theorem addMessage_senders_from_calls_witness :
    (Message.mk "assistant" "b" "t2").sender ∈ ["user", "assistant"] :=
  (addMessage_senders_from_calls ContextMemoryManager.new rfl
    [AddCall.mk "user" "a" none "t1", AddCall.mk "assistant" "b" none "t2"]
    ["user", "assistant"]).2 (by decide) (Message.mk "assistant" "b" "t2") (by decide)

/-- Counterexample to C23 as stated: the call made by `displayOCRResult` appends
a message whose sender is `bot`, which is neither `user` nor `assistant`. -/
theorem addMessage_ocr_sender_bot :
    (addAll ContextMemoryManager.new [ocrAddCall "42" "t1"]).contextData =
      [Message.mk "bot" "OCR Result: 42" "t1"] ∧
    ¬ (∀ msg ∈ (addAll ContextMemoryManager.new [ocrAddCall "42" "t1"]).contextData,
      msg.sender = "user" ∨ msg.sender = "assistant") := by
  decide

/-- C25 (appended message content): after `addMessage(sender, text, timestamp)`
the working set is a suffix of the old working set, unaltered, followed by the new
message; the new message has exactly that sender and that text; its timestamp is
the supplied one when a non-empty timestamp is supplied, and the current time when
the timestamp is omitted or null. -/
theorem addMessage_content (m : ContextMemoryManager) (sender text : String)
    (timestamp : Option String) (nowISO : String) :
    (∃ k : Nat, (m.addMessage sender text timestamp nowISO).contextData =
      m.contextData.drop k ++ [mkMessage sender text timestamp nowISO]) ∧
    (mkMessage sender text timestamp nowISO).sender = sender ∧
    (mkMessage sender text timestamp nowISO).text = text ∧
    (∀ t : String, timestamp = some t → t ≠ "" →
      (mkMessage sender text timestamp nowISO).timestamp = t) ∧
    (timestamp = none → (mkMessage sender text timestamp nowISO).timestamp = nowISO) := by
  refine ⟨addMessage_suffix m sender text timestamp nowISO, rfl, rfl, ?_, ?_⟩
  · intro t ht hne
    simp [mkMessage, jsOr, ht, hne]
  · intro ht
    simp [mkMessage, jsOr, ht]

/-- Witness for C25: a supplied timestamp is kept; an omitted one becomes the
current time. -/
theorem addMessage_content_witness :
    (mkMessage "user" "hi" (some "2024-05-05T10:00:00.000Z") "now").timestamp =
      "2024-05-05T10:00:00.000Z" ∧
    (mkMessage "user" "hi" none "now").timestamp = "now" :=
  ⟨(addMessage_content chatSys.mgr "user" "hi" (some "2024-05-05T10:00:00.000Z") "now").2.2.2.1
      "2024-05-05T10:00:00.000Z" rfl (by decide),
   (addMessage_content chatSys.mgr "user" "hi" none "now").2.2.2.2 rfl⟩

/-- C26 (the bound is re-established from any state): for every limit `L ≥ 1`
and every prior working set `W`, of any length, after one `addMessage` the working
set is the last `min(|W| + 1, L)` elements of `W` followed by the new message; its
length is `min(|W| + 1, L)`, at most `L`, and its last element is the new
message. -/
theorem addMessage_reestablishes_bound (m : ContextMemoryManager) (sender text : String)
    (timestamp : Option String) (nowISO : String) (hL : 1 ≤ m.maxLocalMessages) :
    (m.addMessage sender text timestamp nowISO).contextData =
      (m.contextData ++ [mkMessage sender text timestamp nowISO]).drop
        (m.contextData.length + 1 - min (m.contextData.length + 1) m.maxLocalMessages) ∧
    (m.addMessage sender text timestamp nowISO).contextData.length =
      min (m.contextData.length + 1) m.maxLocalMessages ∧
    (m.addMessage sender text timestamp nowISO).contextData.length ≤ m.maxLocalMessages ∧
    (m.addMessage sender text timestamp nowISO).contextData.getLast? =
      some (mkMessage sender text timestamp nowISO) := by
  have h := addMessage_contextData m sender text timestamp nowISO hL
  have e : m.contextData.length + 1 - min (m.contextData.length + 1) m.maxLocalMessages =
      m.contextData.length + 1 - m.maxLocalMessages := by omega
  obtain ⟨k, hk⟩ := addMessage_suffix m sender text timestamp nowISO
  refine ⟨by rw [e]; exact h, ?_, ?_, ?_⟩
  · rw [h]
    simp only [List.length_drop, List.length_append, List.length_singleton]
    omega
  · rw [h]
    simp only [List.length_drop, List.length_append, List.length_singleton]
    omega
  · rw [hk]
    simp

/-- Witness for C26: limit 2 and a prior working set of three messages. -/
theorem addMessage_reestablishes_bound_witness :
    (ContextMemoryManager.addMessage
      { ContextMemoryManager.new with
        maxLocalMessages := 2, contextData := [msgHi, msgHello, msgHi] }
      "user" "c" none "t3").contextData = [msgHi, Message.mk "user" "c" "t3"] :=
  ((addMessage_reestablishes_bound
    { ContextMemoryManager.new with
      maxLocalMessages := 2, contextData := [msgHi, msgHello, msgHi] }
    "user" "c" none "t3" (by decide)).1).trans (by decide)

/-- C27 at the failing input: `getRecentMessages(0)` on the working set
`[msgHi, msgHello]` returns both messages (`slice(-0)` is `slice(0)`), while
`getRecentMessages(1)` returns the last one. -/
theorem getRecentMessages_zero_returns_all :
    chatSys.mgr.getRecentMessages 0 = [msgHi, msgHello] ∧
    (chatSys.mgr.getRecentMessages 0).length = 2 ∧
    chatSys.mgr.getRecentMessages 1 = [msgHello] := by
  decide

/-! ### The local tier without a handle -/

/-- C24 (unavailable local tier is skipped): with no store handle,
`loadFromIndexedDB` resolves `[]` and `saveToIndexedDB` and `clearFromIndexedDB`
resolve, all three leaving the whole system (working set, store, trace: no store
request) as it was; and with a handle, a `get` request (made under a session id)
that fires `onerror` also yields `[]`. -/
theorem local_tier_skipped (env : Env) (s : Sys) :
    (s.mgr.db = none →
      loadFromIndexedDB env s = (Except.ok [], s) ∧
      saveToIndexedDB env s = (Completion.resolved, s) ∧
      clearFromIndexedDB env s = (Completion.resolved, s)) ∧
    (∀ (h : IDBDatabase) (sid err : String), s.mgr.db = some h →
      s.mgr.sessionId = some sid → env.getOutcome = IDBOutcome.onerror err →
      (loadFromIndexedDB env s).1 = Except.ok []) := by
  constructor
  · intro hdb
    refine ⟨?_, ?_, ?_⟩
    · unfold loadFromIndexedDB; rw [hdb]
    · unfold saveToIndexedDB; rw [hdb]
    · unfold clearFromIndexedDB; rw [hdb]
  · intro h sid err hdb hsid hget
    unfold loadFromIndexedDB
    rw [hdb, hsid]
    simp [hget]

/-- Witness for C24: the constructed engine (no handle) with a record in the
store; and `localOnlySys` with a failing `get`. -/
theorem local_tier_skipped_witness :
    loadFromIndexedDB okEnv (initialSys localOnlySys.store) =
      (Except.ok [], initialSys localOnlySys.store) ∧
    (loadFromIndexedDB getFailsEnv localOnlySys).1 = Except.ok [] :=
  ⟨((local_tier_skipped okEnv (initialSys localOnlySys.store)).1 rfl).1,
   (local_tier_skipped getFailsEnv localOnlySys).2
      { name := "EduBotContextDB", version := 1 } "srv-1" "UnknownError" rfl rfl rfl⟩

/-! ### Upload validation -/

/-- C28 (upload validation): for the constructed manager, `validateFile(file)`
reports valid exactly when the file's type is one of the six allowed image types
and its size is at most `10 * 1024 * 1024` bytes; a disallowed type gets the
invalid-type error whatever the size, and an allowed type above the limit gets the
too-large error, which states a maximum of 10MB. -/
theorem validateFile_spec (file : UploadFile) :
    ((ImageRecognitionManager.new.validateFile file).valid = true ↔
      (file.type ∈ ["image/png", "image/jpeg", "image/jpg", "image/gif", "image/webp",
        "image/bmp"] ∧ file.size ≤ 10 * 1024 * 1024)) ∧
    (file.type ∉ ["image/png", "image/jpeg", "image/jpg", "image/gif", "image/webp",
        "image/bmp"] →
      ImageRecognitionManager.new.validateFile file =
        Validation.mk false
          (some "Invalid file type. Please upload an image (PNG, JPG, GIF, WebP, BMP)")) ∧
    (file.type ∈ ["image/png", "image/jpeg", "image/jpg", "image/gif", "image/webp",
        "image/bmp"] → file.size > 10 * 1024 * 1024 →
      ImageRecognitionManager.new.validateFile file =
        Validation.mk false (some "File too large. Maximum size is 10MB")) := by
  have hmsg : "File too large. Maximum size is " ++
      toString (ImageRecognitionManager.new.maxFileSize / (1024 * 1024)) ++ "MB" =
      "File too large. Maximum size is 10MB" := by decide
  have hc : ImageRecognitionManager.new.allowedTypes.contains file.type = true ↔
      file.type ∈ ["image/png", "image/jpeg", "image/jpg", "image/gif", "image/webp",
        "image/bmp"] := by
    simp [ImageRecognitionManager.new]
  have hsz : ImageRecognitionManager.new.maxFileSize = 10 * 1024 * 1024 := rfl
  by_cases ht : file.type ∈ ["image/png", "image/jpeg", "image/jpg", "image/gif",
      "image/webp", "image/bmp"]
  · have hct := hc.mpr ht
    by_cases hs : file.size > 10 * 1024 * 1024
    · have hv : ImageRecognitionManager.new.validateFile file =
          Validation.mk false (some "File too large. Maximum size is 10MB") := by
        unfold ImageRecognitionManager.validateFile
        rw [hct, hmsg, hsz]
        simp [hs]
      refine ⟨?_, fun hn => absurd ht hn, fun _ _ => hv⟩
      rw [hv]
      constructor
      · intro h; exact absurd h (by decide)
      · intro h; omega
    · have hv : ImageRecognitionManager.new.validateFile file = Validation.mk true none := by
        unfold ImageRecognitionManager.validateFile
        rw [hct, hsz]
        simp [hs]
      refine ⟨?_, fun hn => absurd ht hn, fun _ h => absurd h hs⟩
      rw [hv]
      exact ⟨fun _ => ⟨ht, by omega⟩, fun _ => rfl⟩
  · have hct : ImageRecognitionManager.new.allowedTypes.contains file.type = false := by
      cases h : ImageRecognitionManager.new.allowedTypes.contains file.type with
      | false => rfl
      | true => exact absurd (hc.mp h) ht
    have hv : ImageRecognitionManager.new.validateFile file =
        Validation.mk false
          (some "Invalid file type. Please upload an image (PNG, JPG, GIF, WebP, BMP)") := by
      unfold ImageRecognitionManager.validateFile
      rw [hct]
      simp
    refine ⟨?_, fun _ => hv, fun h => absurd h ht⟩
    rw [hv]
    constructor
    · intro h; exact absurd h (by decide)
    · intro h; exact absurd h.1 ht

/-- Witness for C28: a PNG of exactly the limit is valid; a PDF is refused for its
type; a PNG one byte over the limit is refused for its size. -/
theorem validateFile_spec_witness :
    (ImageRecognitionManager.new.validateFile
      (UploadFile.mk "image/png" 10485760)).valid = true ∧
    ImageRecognitionManager.new.validateFile (UploadFile.mk "application/pdf" 5) =
      Validation.mk false
        (some "Invalid file type. Please upload an image (PNG, JPG, GIF, WebP, BMP)") ∧
    ImageRecognitionManager.new.validateFile (UploadFile.mk "image/png" 10485761) =
      Validation.mk false (some "File too large. Maximum size is 10MB") :=
  ⟨(validateFile_spec (UploadFile.mk "image/png" 10485760)).1.mpr ⟨by decide, by decide⟩,
   (validateFile_spec (UploadFile.mk "application/pdf" 5)).2.1 (by decide),
   (validateFile_spec (UploadFile.mk "image/png" 10485761)).2.2 (by decide) (by decide)⟩

/-! ### Autocomplete selection -/

theorem highlightSuggestion_fields (a : AutocompleteManager) :
    a.highlightSuggestion.selectedIndex = a.selectedIndex ∧
    a.highlightSuggestion.rendered = a.rendered := by
  unfold AutocompleteManager.highlightSuggestion
  split <;> exact ⟨rfl, rfl⟩

/-- Method `selectSuggestion` changes nothing, or resets the selection to -1 and
keeps the rendered nodes. -/
theorem selectSuggestion_cases (a : AutocompleteManager) (index : Int) :
    a.selectSuggestion index = a ∨
    ((a.selectSuggestion index).selectedIndex = -1 ∧
      (a.selectSuggestion index).rendered = a.rendered) := by
  unfold AutocompleteManager.selectSuggestion
  split
  · split
    · right
      simp only [AutocompleteManager.hideSuggestions]
      split <;> exact ⟨rfl, rfl⟩
    · left; rfl
  · left; rfl

/-- One key event keeps the rendered nodes and keeps the selection in range. -/
theorem handleKeyDown_in_range (a : AutocompleteManager) (key : String)
    (hlo : -1 ≤ a.selectedIndex) (hhi : a.selectedIndex ≤ (a.rendered : Int) - 1) :
    (a.handleKeyDown key).rendered = a.rendered ∧
    -1 ≤ (a.handleKeyDown key).selectedIndex ∧
    (a.handleKeyDown key).selectedIndex ≤ (a.rendered : Int) - 1 := by
  unfold AutocompleteManager.handleKeyDown
  split
  · rw [(highlightSuggestion_fields _).1, (highlightSuggestion_fields _).2]
    simp only []
    refine ⟨trivial, ?_, ?_⟩ <;> omega
  · split
    · rw [(highlightSuggestion_fields _).1, (highlightSuggestion_fields _).2]
      simp only []
      refine ⟨trivial, ?_, ?_⟩ <;> omega
    · split
      · split
        · rcases selectSuggestion_cases
            { a with log := a.log ++ [AcEffect.preventDefault] } a.selectedIndex with h | h
          · rw [h]; exact ⟨rfl, hlo, hhi⟩
          · rw [h.1, h.2]
            refine ⟨rfl, ?_, ?_⟩ <;> omega
        · exact ⟨rfl, hlo, hhi⟩
      · split
        · simp only [AutocompleteManager.hideSuggestions]
          refine ⟨trivial, ?_, ?_⟩ <;> omega
        · exact ⟨rfl, hlo, hhi⟩

/-- Any sequence of key events keeps the rendered nodes and keeps the selection in
range. -/
theorem handleKeys_in_range (keys : List String) : ∀ (a : AutocompleteManager),
    -1 ≤ a.selectedIndex → a.selectedIndex ≤ (a.rendered : Int) - 1 →
    (a.handleKeys keys).rendered = a.rendered ∧
    -1 ≤ (a.handleKeys keys).selectedIndex ∧
    (a.handleKeys keys).selectedIndex ≤ (a.rendered : Int) - 1 := by
  induction keys with
  | nil => intro a hlo hhi; exact ⟨rfl, hlo, hhi⟩
  | cons key rest ih =>
    intro a hlo hhi
    obtain ⟨hr, h1, h2⟩ := handleKeyDown_in_range a key hlo hhi
    have := ih (a.handleKeyDown key) h1 (by rw [hr]; exact h2)
    rw [hr] at this
    exact this

/-- C29 (autocomplete selection stays in range): starting from
`selectedIndex = -1` with `k` rendered suggestions, after any sequence of key
events handled by `handleKeyDown` the selection satisfies
`-1 ≤ selectedIndex ≤ k - 1`; `ArrowDown` at the last suggestion and `ArrowUp` at
-1 leave it unchanged; `selectSuggestion(index)` leaves the whole state (the input
text included) as it was unless `0 ≤ index < currentSuggestions.length`, and then
sets the input text to that suggestion's text. -/
theorem autocomplete_selection_in_range (a : AutocompleteManager) (keys : List String)
    (index : Int) (hstart : a.selectedIndex = -1) :
    (-1 ≤ (a.handleKeys keys).selectedIndex ∧
      (a.handleKeys keys).selectedIndex ≤ (a.rendered : Int) - 1) ∧
    (∀ b : AutocompleteManager, b.selectedIndex = (b.rendered : Int) - 1 →
      (b.handleKeyDown "ArrowDown").selectedIndex = b.selectedIndex) ∧
    (∀ b : AutocompleteManager, b.selectedIndex = -1 →
      (b.handleKeyDown "ArrowUp").selectedIndex = -1) ∧
    (¬ (0 ≤ index ∧ index < (a.currentSuggestions.length : Int)) →
      a.selectSuggestion index = a) ∧
    (∀ sug : Suggestion, 0 ≤ index → a.currentSuggestions.get? index.toNat = some sug →
      (a.selectSuggestion index).inputValue = sug.text) := by
  refine ⟨?_, ?_, ?_, ?_, ?_⟩
  · have h := handleKeys_in_range keys a (by omega) (by omega)
    exact ⟨h.2.1, h.2.2⟩
  · intro b hb
    simp only [AutocompleteManager.handleKeyDown, if_true]
    rw [(highlightSuggestion_fields _).1]
    simp only []
    omega
  · intro b hb
    have hne : ¬ ("ArrowUp" = "ArrowDown") := by decide
    simp only [AutocompleteManager.handleKeyDown, if_neg hne, if_true]
    rw [(highlightSuggestion_fields _).1]
    simp only []
    omega
  · intro hout
    unfold AutocompleteManager.selectSuggestion
    rw [if_neg (by omega)]
  · intro sug h0 hget
    have hlt : index.toNat < a.currentSuggestions.length := by
      rcases Nat.lt_or_ge index.toNat a.currentSuggestions.length with h | h
      · exact h
      · rw [List.get?_eq_none.mpr h] at hget
        exact absurd hget (by simp)
    unfold AutocompleteManager.selectSuggestion
    rw [if_pos ⟨by omega, by omega⟩, hget]
    simp only [AutocompleteManager.hideSuggestions]
    split <;> rfl

/-- Witness for C29: two rendered suggestions and the keys ArrowDown, ArrowDown,
ArrowDown, ArrowUp, Enter. -/
theorem autocomplete_selection_in_range_witness :
    -1 ≤ (twoSuggestions.handleKeys
      ["ArrowDown", "ArrowDown", "ArrowDown", "ArrowUp", "Enter"]).selectedIndex ∧
    (twoSuggestions.handleKeys
      ["ArrowDown", "ArrowDown", "ArrowDown", "ArrowUp", "Enter"]).selectedIndex ≤
      ((twoSuggestions.rendered : Nat) : Int) - 1 :=
  (autocomplete_selection_in_range twoSuggestions
    ["ArrowDown", "ArrowDown", "ArrowDown", "ArrowUp", "Enter"] 0 rfl).1

/-! ### Toast stack -/

/-- The loop keeps the last `maxToasts` toasts. -/
theorem shiftOldest_fst (n : Nat) (l : List Toast) :
    (shiftOldest n l).1 = l.drop (l.length - n) := by
  induction l with
  | nil => simp [shiftOldest]
  | cons t rest ih =>
    unfold shiftOldest
    split
    · rename_i h
      simp only [List.length_cons] at h ⊢
      rw [ih]
      have e : rest.length + 1 - n = (rest.length - n) + 1 := by omega
      rw [e, List.drop_succ_cons]
    · rename_i h
      simp only [List.length_cons] at h ⊢
      have e : rest.length + 1 - n = 0 := by omega
      rw [e, List.drop_zero]

/-- The loop shifts off the front everything but the last `maxToasts` toasts. -/
theorem shiftOldest_snd (n : Nat) (l : List Toast) :
    (shiftOldest n l).2 = l.take (l.length - n) := by
  induction l with
  | nil => simp [shiftOldest]
  | cons t rest ih =>
    unfold shiftOldest
    split
    · rename_i h
      simp only [List.length_cons] at h ⊢
      rw [ih]
      have e : rest.length + 1 - n = (rest.length - n) + 1 := by omega
      rw [e, List.take_succ_cons]
    · rename_i h
      simp only [List.length_cons] at h ⊢
      have e : rest.length + 1 - n = 0 := by omega
      rw [e, List.take_zero]

theorem positionToasts_length (k : Nat) (l : List Toast) :
    (positionToasts k l).length = l.length := by
  induction l generalizing k with
  | nil => rfl
  | cons t rest ih => simp [positionToasts, ih]

theorem positionToasts_ids (k : Nat) (l : List Toast) :
    (positionToasts k l).map Toast.id = l.map Toast.id := by
  induction l generalizing k with
  | nil => rfl
  | cons t rest ih => simp [positionToasts, ih]

/-- The toast at position `i` of a positioned list starting at `k` has top
`20 + (k + i) * 100` pixels. -/
theorem positionToasts_top (l : List Toast) : ∀ (k i : Nat) (t : Toast),
    (positionToasts k l)[i]? = some t →
    t.top = some (toString (20 + (k + i) * 100) ++ "px") := by
  induction l with
  | nil => intro k i t h; simp [positionToasts] at h
  | cons x rest ih =>
    intro k i t h
    cases i with
    | zero =>
      simp only [positionToasts, List.getElem?_cons_zero, Option.some.injEq] at h
      rw [← h]
      rfl
    | succ j =>
      simp only [positionToasts, List.getElem?_cons_succ] at h
      have := ih (k + 1) j t h
      rw [this]
      congr 3
      omega

/-- C30 (toast stack bound): with `maxToasts = 3`, after every `show` at most 3
toasts are tracked; when a fourth toast is shown the oldest tracked toast is the
one removed (and hidden) and the others keep their order, followed by the new
toast; with fewer than three tracked none is removed; and the toast at position
`i` has `style.top` equal to `20 + i * 100` pixels. -/
theorem toast_stack_bound (tm : ToastManager) (message type : String) (duration : Nat)
    (hmax : tm.maxToasts = 3) :
    (tm.show message type duration).2.toasts.length ≤ 3 ∧
    (tm.toasts.length = 3 →
      (tm.show message type duration).2.toasts.map Toast.id =
        tm.toasts.tail.map Toast.id ++ [tm.created] ∧
      (tm.show message type duration).2.hidden.map Toast.id =
        tm.hidden.map Toast.id ++ tm.toasts.head?.toList.map Toast.id) ∧
    (tm.toasts.length < 3 →
      (tm.show message type duration).2.toasts.map Toast.id =
        tm.toasts.map Toast.id ++ [tm.created] ∧
      (tm.show message type duration).2.hidden = tm.hidden) ∧
    (∀ (i : Nat) (t : Toast), (tm.show message type duration).2.toasts[i]? = some t →
      t.top = some (toString (20 + i * 100) ++ "px")) := by
  have htoasts : (tm.show message type duration).2.toasts =
      positionToasts 0 ((tm.toasts ++ [Toast.mk tm.created message type none false]).drop
        (tm.toasts.length + 1 - 3)) := by
    simp only [ToastManager.show, ToastManager.manageToastStack, shiftOldest_fst, hmax,
      List.length_append, List.length_singleton]
  have hhidden : (tm.show message type duration).2.hidden =
      tm.hidden ++ ((tm.toasts ++ [Toast.mk tm.created message type none false]).take
        (tm.toasts.length + 1 - 3)).map (fun t => { t with hidingClass := true }) := by
    simp only [ToastManager.show, ToastManager.manageToastStack, shiftOldest_snd, hmax,
      List.length_append, List.length_singleton]
  refine ⟨?_, ?_, ?_, ?_⟩
  · rw [htoasts, positionToasts_length]
    simp only [List.length_drop, List.length_append, List.length_singleton]
    omega
  · intro h3
    rw [htoasts, hhidden, positionToasts_ids, h3]
    match htm : tm.toasts, h3 with
    | [a, b, c], _ => simp
  · intro hlt
    rw [htoasts, hhidden, positionToasts_ids]
    have e : tm.toasts.length + 1 - 3 = 0 := by omega
    rw [e]
    simp
  · intro i t h
    rw [htoasts] at h
    have := positionToasts_top _ 0 i t h
    rw [this]
    congr 3
    omega

/-- Witness for C30: four toasts shown in a row from the constructed manager. -/
theorem toast_stack_bound_witness :
    ((((ToastManager.new.show "a" "info" 3000).2.show "b" "info" 3000).2.show "c" "info"
      3000).2.show "d" "info" 3000).2.toasts.length ≤ 3 :=
  (toast_stack_bound
    (((ToastManager.new.show "a" "info" 3000).2.show "b" "info" 3000).2.show "c" "info"
      3000).2 "d" "info" 3000 (by decide)).1

end EduBot
